import Mathlib

/-!
Shallow embedding of the tournament engine of `src/server.js`:
the single-elimination bracket builder (`createSingleEliminationBracket`),
the round-advancement helper (`checkAndAdvanceRound`), the per-user stats
update (`updateUserStats`), and the HTTP routes that mutate tournament
state (submit-result, admin result, start, reset, match reset,
force-complete).  `Math.random()`-driven choices are passed in as explicit
`Nat → Nat` streams (reduced mod the live range); `Date.now()` /
`toISOString()` timestamps are passed in as a `Nat` parameter `now`.
Scores travel as `Int` (the routes run `parseInt` on their inputs).
-/

set_option maxHeartbeats 1000000

namespace Fifa

/-- A tournament participant as stored in bracket slots. -/
structure Participant where
  id : Nat
  walletAddress : String
  deriving DecidableEq

inductive MatchStatus
  | pending
  | completed
  deriving DecidableEq

inductive CompletedBy
  | auto
  | admin
  deriving DecidableEq

/-- One entry of a match's `pendingResults` array. -/
structure SubmittedResult where
  submittedBy : Nat
  walletAddress : String
  score1 : Int
  score2 : Int
  submittedAt : Nat
  conflict : Bool
  deriving DecidableEq

/-- A bracket match object. -/
structure GameMatch where
  id : String
  player1 : Participant
  player2 : Participant
  winner : Option Participant
  score1 : Option Int
  score2 : Option Int
  status : MatchStatus
  pendingResults : List SubmittedResult
  completedAt : Option Nat
  completedBy : Option CompletedBy
  deriving DecidableEq

structure Bracket where
  bracketSize : Nat
  totalRounds : Nat
  currentRound : Nat
  rounds : List (List GameMatch)
  playersWithByes : List Participant
  isComplete : Bool
  winner : Option Participant
  deriving DecidableEq

inductive TStatus
  | registration
  | started
  | finished
  deriving DecidableEq

structure Tournament where
  status : TStatus
  participants : List Participant
  bracket : Option Bracket
  winner : Option Participant
  startedAt : Option Nat
  finishedAt : Option Nat
  deriving DecidableEq

/-- Per-game counters of a global user's `stats.gameStats[gameId]`. -/
structure GameStat where
  tournaments : Nat
  wins : Nat
  deriving DecidableEq

/-- A global user record (the parts `updateUserStats` touches). -/
structure UserRec where
  walletAddress : String
  totalWins : Nat
  gameStats : List (String × GameStat)
  deriving DecidableEq

/-- The global users store, keyed by lower-cased wallet address. -/
abbrev Users := List (String × UserRec)

/-! ## Fisher-Yates shuffle (`shuffleArray`) -/

/-- Exchange the entries at positions `i` and `j`; out-of-range indices
leave the list unchanged. -/
def listSwap (l : List α) (i j : Nat) : List α :=
  match l.get? i, l.get? j with
  | some x, some y => (l.set i y).set j x
  | _, _ => l

/-- The Fisher-Yates loop of `shuffleArray`, running the index `i` from
its first argument down to `1`; at index `i` the partner `j` is
`rnd i % (i + 1)`, the model of `Math.floor(Math.random() * (i + 1))`. -/
def fisherYatesAux (rnd : Nat → Nat) : Nat → List α → List α
  | 0, l => l
  | i + 1, l => fisherYatesAux rnd i (listSwap l (i + 1) (rnd (i + 1) % (i + 2)))

/-- `shuffleArray` from the source, with the random stream explicit. -/
def shuffleArray (rnd : Nat → Nat) (l : List α) : List α :=
  fisherYatesAux rnd (l.length - 1) l

/-! ## Bracket builder (`createSingleEliminationBracket`) -/

/-- The `while (bracketSize < n) bracketSize *= 2` loop, with fuel. -/
def bracketSizeAux : Nat → Nat → Nat → Nat
  | 0, b, _ => b
  | fuel + 1, b, n => if b < n then bracketSizeAux fuel (2 * b) n else b

/-- First power of two reached from `1` by doubling while below `n`. -/
def computeBracketSize (n : Nat) : Nat :=
  bracketSizeAux n 1 n

/-- The bye-selection loop: draw `k` participants at random positions
from the pool, returning the drawn list (in draw order) and the rest.
The source would push `undefined` when drawing from an empty pool; that
situation is unreachable (`byes < n` for every nonempty pool), and the
model skips such draws. -/
def drawByes (rnd : Nat → Nat) : Nat → List Participant → List Participant × List Participant
  | 0, pool => ([], pool)
  | k + 1, pool =>
    if h : 0 < pool.length then
      let idx : Fin pool.length := ⟨rnd k % pool.length, Nat.mod_lt _ h⟩
      let out := drawByes rnd k (pool.eraseIdx idx.val)
      (pool.get idx :: out.1, out.2)
    else ([], pool)

/-- A fresh pending match. -/
def mkMatch (id : String) (p1 p2 : Participant) : GameMatch :=
  { id := id, player1 := p1, player2 := p2, winner := none,
    score1 := none, score2 := none, status := .pending,
    pendingResults := [], completedAt := none, completedBy := none }

/-- Pair a pool consecutively (`pool[i]` vs `pool[i+1]`, step 2) into
matches; a trailing unpaired participant is dropped, as in the source's
`if (i + 1 < playersCopy.length)` guard.  `k` is the running match index
used for id generation. -/
def pairPlayers (mkId : Nat → String) : Nat → List Participant → List GameMatch
  | k, p1 :: p2 :: rest => mkMatch (mkId k) p1 p2 :: pairPlayers mkId (k + 1) rest
  | _, _ => []

/-- Id of a round-1 match: `match_${Date.now()}_${i/2}`. -/
def roundOneId (now k : Nat) : String :=
  "match_" ++ toString now ++ "_" ++ toString k

/-- Id of a later-round match: `match_${Date.now()}_${i/2}_round${r}`. -/
def nextRoundId (now k r : Nat) : String :=
  "match_" ++ toString now ++ "_" ++ toString k ++ "_round" ++ toString r

/-- `createSingleEliminationBracket(players)`, with the two random
streams (shuffle, bye draw) and the clock explicit. -/
def createSingleEliminationBracket (rnd1 rnd2 : Nat → Nat) (now : Nat)
    (players : List Participant) : Bracket :=
  let shuffledPlayers := shuffleArray rnd1 players
  let bracketSize := computeBracketSize shuffledPlayers.length
  let byes := bracketSize - shuffledPlayers.length
  let drawn := drawByes rnd2 byes shuffledPlayers
  let firstRound := pairPlayers (roundOneId now) 0 drawn.2
  { bracketSize := bracketSize,
    totalRounds := Nat.log2 bracketSize,
    currentRound := 1,
    rounds := [firstRound],
    playersWithByes := drawn.1,
    isComplete := false,
    winner := none }

/-! ## Locating and replacing matches inside `bracket.rounds` -/

/-- The match-lookup loop shared by the routes: scan the rounds in order
and return the index of the first round holding a match with the given
id, together with that match. -/
def findMatchAux (matchId : String) : Nat → List (List GameMatch) → Option (Nat × GameMatch)
  | _, [] => none
  | i, r :: rest =>
    match r.find? (fun m => m.id == matchId) with
    | some m => some (i, m)
    | none => findMatchAux matchId (i + 1) rest

def findMatch (rounds : List (List GameMatch)) (matchId : String) :
    Option (Nat × GameMatch) :=
  findMatchAux matchId 0 rounds

/-- Replace the first match with the given id inside one round. -/
def setMatchInRound (matchId : String) (m1 : GameMatch) : List GameMatch → List GameMatch
  | [] => []
  | m :: rest =>
    if m.id == matchId then m1 :: rest else m :: setMatchInRound matchId m1 rest

/-- Replace the first match with the given id across the rounds: the
pure-state counterpart of the source's in-place mutation of the object
returned by the lookup loop. -/
def setFirstMatch (matchId : String) (m1 : GameMatch) : List (List GameMatch) → List (List GameMatch)
  | [] => []
  | r :: rest =>
    if r.any (fun m => m.id == matchId) then setMatchInRound matchId m1 r :: rest
    else r :: setFirstMatch matchId m1 rest

/-! ## `updateUserStats` -/

/-- ASCII model of JavaScript `toLowerCase()`, used on wallet keys. -/
def lowerChar (c : Char) : Char :=
  if 'A' ≤ c ∧ c ≤ 'Z' then Char.ofNat (c.toNat + 32) else c

def strToLower (s : String) : String :=
  String.mk (s.data.map lowerChar)

def updateGameStat (isWinner : Bool) (gs : GameStat) : GameStat :=
  { tournaments := gs.tournaments + 1,
    wins := gs.wins + (if isWinner then 1 else 0) }

/-- `updateUserStats(walletAddress, gameId, isWinner)`: no-op when the
lower-cased wallet key is absent (the source's `if` guard); when the
user exists, bump `totalWins` (winners only) and the per-game counters.
The source throws when `gameStats[gameId]` is absent; the model updates
only the present entries, so claims about stats assume the entry exists. -/
def updateUserStats (users : Users) (walletAddress : String) (gameId : String)
    (isWinner : Bool) : Users :=
  let userKey := strToLower walletAddress
  users.map (fun kv =>
    if kv.1 == userKey then
      (kv.1,
       { kv.2 with
          totalWins := kv.2.totalWins + (if isWinner then 1 else 0),
          gameStats := kv.2.gameStats.map (fun gs =>
            if gs.1 == gameId then (gs.1, updateGameStat isWinner gs.2) else gs) })
    else kv)

/-- Look a user up by wallet key (for stating stats properties). -/
def lookupUser (users : Users) (walletAddress : String) : Option UserRec :=
  (users.find? (fun kv => kv.1 == strToLower walletAddress)).map (·.2)

/-! ## `checkAndAdvanceRound` -/

/-- `checkAndAdvanceRound(gamesData, gameId, tournamentId, currentRoundIndex)`
as a pure transformer of the tournament and the users store.  A missing
bracket or round index would crash the source request; the model returns
the state unchanged there (those calls never arise from the routes). -/
def checkAndAdvanceRound (gameId : String) (now : Nat) (roundIndex : Nat)
    (st : Tournament × Users) : Tournament × Users :=
  match st.1.bracket with
  | none => st
  | some b =>
    match b.rounds.get? roundIndex with
    | none => st
    | some currentRound =>
      if currentRound.all (fun m => m.status == .completed) then
        let winners := currentRound.filterMap (fun m => m.winner)
        let advancingPlayers :=
          winners ++ (if roundIndex == 0 then b.playersWithByes else [])
        let b1 := if roundIndex == 0 then { b with playersWithByes := [] } else b
        match advancingPlayers with
        | [champion] =>
          ({ st.1 with
              bracket := some { b1 with isComplete := true, winner := some champion },
              status := .finished, finishedAt := some now,
              winner := some champion },
           updateUserStats st.2 champion.walletAddress gameId true)
        | _ =>
          if roundIndex + 1 = b1.currentRound then
            let nextRound :=
              pairPlayers (fun k => nextRoundId now k (b1.currentRound + 1)) 0 advancingPlayers
            ({ st.1 with
                bracket := some { b1 with
                  currentRound := b1.currentRound + 1,
                  rounds := b1.rounds ++ [nextRound] } }, st.2)
          else
            ({ st.1 with bracket := some b1 }, st.2)
      else st

/-! ## The mutating routes -/

inductive ApiError
  | drawNotAllowed
  | matchNotFound
  | alreadyCompleted
  | notPartOfMatch
  | duplicateSubmission
  | invalidWinnerId
  | winnerOrScoreRequired
  | matchNotCompleted
  | tooFewParticipants
  | alreadyStarted
  | onlyRegistrationReset
  | winnerNotInParticipants
  | serverError
  deriving DecidableEq

/-- The submit-result route.  A `null` bracket crashes the source with a
500 and no write; the model returns `serverError` with no state change. -/
def submitResult (gameId : String) (now : Nat) (matchId : String)
    (submittedBy : Nat) (walletAddress : String) (s1 s2 : Int)
    (st : Tournament × Users) : Except ApiError (Tournament × Users) :=
  if s1 = s2 then .error .drawNotAllowed
  else
    match st.1.bracket with
    | none => .error .serverError
    | some b =>
      match findMatch b.rounds matchId with
      | none => .error .matchNotFound
      | some (roundIndex, targetMatch) =>
        if targetMatch.status = .completed then .error .alreadyCompleted
        else if submittedBy ≠ targetMatch.player1.id ∧ submittedBy ≠ targetMatch.player2.id then
          .error .notPartOfMatch
        else if targetMatch.pendingResults.any (fun r => r.submittedBy == submittedBy) then
          .error .duplicateSubmission
        else
          let pr := targetMatch.pendingResults ++
            [{ submittedBy := submittedBy, walletAddress := walletAddress,
               score1 := s1, score2 := s2, submittedAt := now, conflict := false }]
          match pr with
          | [result1, result2] =>
            if result1.score1 = result2.score1 ∧ result1.score2 = result2.score2 then
              let completed := { targetMatch with
                score1 := some result1.score1, score2 := some result1.score2,
                winner := some (if result1.score1 > result1.score2 then
                  targetMatch.player1 else targetMatch.player2),
                status := .completed, completedAt := some now,
                completedBy := some .auto, pendingResults := pr }
              let t1 := { st.1 with
                bracket := some { b with rounds := setFirstMatch matchId completed b.rounds } }
              .ok (checkAndAdvanceRound gameId now roundIndex (t1, st.2))
            else
              let conflicted := { targetMatch with
                pendingResults := pr.map (fun r => { r with conflict := true }) }
              .ok ({ st.1 with
                bracket := some { b with rounds := setFirstMatch matchId conflicted b.rounds } },
                st.2)
          | _ =>
            .ok ({ st.1 with
              bracket := some { b with
                rounds := setFirstMatch matchId { targetMatch with pendingResults := pr } b.rounds } },
              st.2)

/-- The admin result route: a score pair takes precedence (winner is the
higher score's player, with no draw check); otherwise an explicit winner
id is validated against the two players; scores stay untouched on the
winner-id path.  Always completes the match, clears `pendingResults`,
stamps `completedBy = admin`, and invokes round advancement. -/
def adminSetResult (gameId : String) (now : Nat) (matchId : String)
    (winnerId : Option Nat) (s1 s2 : Option Int)
    (st : Tournament × Users) : Except ApiError (Tournament × Users) :=
  match st.1.bracket with
  | none => .error .serverError
  | some b =>
    match findMatch b.rounds matchId with
    | none => .error .matchNotFound
    | some (roundIndex, targetMatch) =>
      let withResult : Except ApiError GameMatch :=
        match s1, s2 with
        | some a, some c =>
          .ok { targetMatch with
            score1 := some a, score2 := some c,
            winner := some (if a > c then targetMatch.player1 else targetMatch.player2) }
        | _, _ =>
          match winnerId with
          | some wid =>
            if wid ≠ targetMatch.player1.id ∧ wid ≠ targetMatch.player2.id then
              .error .invalidWinnerId
            else
              .ok { targetMatch with
                winner := some (if wid = targetMatch.player1.id then
                  targetMatch.player1 else targetMatch.player2) }
          | none => .error .winnerOrScoreRequired
      match withResult with
      | .error e => .error e
      | .ok m1 =>
        let completed := { m1 with
          status := .completed, completedAt := some now,
          completedBy := some .admin, pendingResults := [] }
        let t1 := { st.1 with
          bracket := some { b with rounds := setFirstMatch matchId completed b.rounds } }
        .ok (checkAndAdvanceRound gameId now roundIndex (t1, st.2))

/-- The tournament start route: rejects fewer than two participants and
status `started` (only), builds a fresh bracket, sets status `started`. -/
def startTournament (rnd1 rnd2 : Nat → Nat) (now : Nat)
    (st : Tournament × Users) : Except ApiError (Tournament × Users) :=
  if st.1.participants.length < 2 then .error .tooFewParticipants
  else if st.1.status = .started then .error .alreadyStarted
  else
    .ok ({ st.1 with
      status := .started, startedAt := some now,
      bracket := some (createSingleEliminationBracket rnd1 rnd2 now st.1.participants) },
      st.2)

/-- The match reset route: only completed matches may be reset; clears
the result fields and submissions, and when the tournament had finished,
reverts it to `started` and clears the tournament and bracket winner. -/
def resetMatch (st : Tournament × Users) (matchId : String) :
    Except ApiError (Tournament × Users) :=
  match st.1.bracket with
  | none => .error .serverError
  | some b =>
    match findMatch b.rounds matchId with
    | none => .error .matchNotFound
    | some (_, targetMatch) =>
      if targetMatch.status ≠ .completed then .error .matchNotCompleted
      else
        let cleared := { targetMatch with
          winner := none, score1 := none, score2 := none,
          status := .pending, completedAt := none, completedBy := none,
          pendingResults := [] }
        let b1 := { b with rounds := setFirstMatch matchId cleared b.rounds }
        if st.1.status = .finished then
          .ok ({ st.1 with
            status := .started, finishedAt := none, winner := none,
            bracket := some { b1 with isComplete := false, winner := none } }, st.2)
        else
          .ok ({ st.1 with bracket := some b1 }, st.2)

/-- The force-complete route: marks the tournament finished with the
named participant as winner (bracket flags too, when a bracket exists)
and updates the winner's global stats. -/
def forceComplete (gameId : String) (now : Nat) (winnerId : Nat)
    (st : Tournament × Users) : Except ApiError (Tournament × Users) :=
  match st.1.participants.find? (fun p => p.id == winnerId) with
  | none => .error .winnerNotInParticipants
  | some winner =>
    .ok ({ st.1 with
      status := .finished, finishedAt := some now, winner := some winner,
      bracket := st.1.bracket.map (fun b =>
        { b with isComplete := true, winner := some winner }) },
      updateUserStats st.2 winner.walletAddress gameId true)

/-- The tournament reset route: legal only during registration; clears
participants, bracket and winner. -/
def resetTournament (st : Tournament × Users) : Except ApiError (Tournament × Users) :=
  if st.1.status ≠ .registration then .error .onlyRegistrationReset
  else
    .ok ({ st.1 with
      participants := [], bracket := none, winner := none, finishedAt := none }, st.2)

/-! ## Operation sequences -/

inductive Op
  | submit (matchId : String) (submittedBy : Nat) (walletAddress : String)
      (s1 s2 : Int) (now : Nat)
  | adminResult (matchId : String) (winnerId : Option Nat) (s1 s2 : Option Int) (now : Nat)
  | start (rnd1 rnd2 : Nat → Nat) (now : Nat)
  | matchReset (matchId : String)
  | force (winnerId : Nat) (now : Nat)
  | reset

def routeOf (gameId : String) (op : Op) (st : Tournament × Users) :
    Except ApiError (Tournament × Users) :=
  match op with
  | .submit mid sb w s1 s2 now => submitResult gameId now mid sb w s1 s2 st
  | .adminResult mid wid s1 s2 now => adminSetResult gameId now mid wid s1 s2 st
  | .start r1 r2 now => startTournament r1 r2 now st
  | .matchReset mid => resetMatch st mid
  | .force wid now => forceComplete gameId now wid st
  | .reset => resetTournament st

/-- Apply one operation; a failed request writes nothing. -/
def applyOp (gameId : String) (st : Tournament × Users) (op : Op) : Tournament × Users :=
  match routeOf gameId op st with
  | .ok st1 => st1
  | .error _ => st

def runOps (gameId : String) (st : Tournament × Users) (ops : List Op) :
    Tournament × Users :=
  ops.foldl (applyOp gameId) st

/-- A freshly created tournament holding a registration list. -/
def mkTournament (participants : List Participant) : Tournament :=
  { status := .registration, participants := participants, bracket := none,
    winner := none, startedAt := none, finishedAt := none }

/-! ## Permutation facts about the shuffle and bye draw -/

theorem perm_get_cons_set (a : α) :
    ∀ (t : List α) (k : Nat) (g : α), t.get? k = some g →
      (g :: t.set k a).Perm (a :: t)
  | [], k, g, h => by simp at h
  | b :: s, 0, g, h => by
    have hg : g = b := by simpa using h.symm
    simpa [hg] using List.Perm.swap a b s
  | b :: s, k + 1, g, h => by
    have ih := perm_get_cons_set a s k g (by simpa using h)
    have h1 : (g :: b :: s.set k a).Perm (b :: g :: s.set k a) :=
      List.Perm.swap b g _
    have h2 : (b :: g :: s.set k a).Perm (b :: a :: s) := ih.cons b
    have h3 : (b :: a :: s).Perm (a :: b :: s) := List.Perm.swap a b s
    simpa using (h1.trans h2).trans h3

theorem swap_set_perm :
    ∀ (l : List α) (i j : Nat) (x y : α), l.get? i = some x → l.get? j = some y →
      ((l.set i y).set j x).Perm l
  | [], i, j, x, y, hi, _ => by simp at hi
  | a :: t, 0, 0, x, y, hi, hj => by
    have hx : x = a := by simpa using hi.symm
    simp [hx]
  | a :: t, 0, k + 1, x, y, hi, hj => by
    have hx : x = a := by simpa using hi.symm
    simpa [hx] using perm_get_cons_set a t k y (by simpa using hj)
  | a :: t, m + 1, 0, x, y, hi, hj => by
    have hy : y = a := by simpa using hj.symm
    simpa [hy] using perm_get_cons_set a t m x (by simpa using hi)
  | a :: t, m + 1, k + 1, x, y, hi, hj => by
    have ih := swap_set_perm t m k x y (by simpa using hi) (by simpa using hj)
    simpa using ih.cons a

theorem listSwap_perm (l : List α) (i j : Nat) : (listSwap l i j).Perm l := by
  unfold listSwap
  cases hi : l.get? i with
  | none => exact List.Perm.refl l
  | some x =>
    cases hj : l.get? j with
    | none => exact List.Perm.refl l
    | some y => exact swap_set_perm l i j x y hi hj

theorem fisherYatesAux_perm (rnd : Nat → Nat) :
    ∀ (n : Nat) (l : List α), (fisherYatesAux rnd n l).Perm l
  | 0, l => List.Perm.refl l
  | n + 1, l =>
    (fisherYatesAux_perm rnd n _).trans (listSwap_perm l (n + 1) (rnd (n + 1) % (n + 2)))

theorem shuffleArray_perm (rnd : Nat → Nat) (l : List α) :
    (shuffleArray rnd l).Perm l :=
  fisherYatesAux_perm rnd (l.length - 1) l

theorem shuffleArray_length (rnd : Nat → Nat) (l : List α) :
    (shuffleArray rnd l).length = l.length :=
  (shuffleArray_perm rnd l).length_eq

/-- Extracting the element at a valid index is a permutation. -/
theorem perm_get_cons_eraseIdx (pool : List α) (idx : Fin pool.length) :
    (pool.get idx :: pool.eraseIdx idx.val).Perm pool := by
  have hdecomp : pool.take idx.val ++ pool.get idx :: pool.drop (idx.val + 1) = pool := by
    conv_rhs => rw [← List.take_append_drop idx.val pool]
    rw [List.get_eq_getElem, List.getElem_cons_drop pool idx.val idx.isLt]
  have herase : pool.eraseIdx idx.val = pool.take idx.val ++ pool.drop (idx.val + 1) :=
    List.eraseIdx_eq_take_drop_succ pool idx.val
  rw [herase]
  have hfinal : (pool.take idx.val ++ pool.get idx :: pool.drop (idx.val + 1)).Perm pool := by
    rw [hdecomp]
  exact List.perm_middle.symm.trans hfinal

theorem drawByes_perm (rnd : Nat → Nat) :
    ∀ (k : Nat) (pool : List Participant),
      ((drawByes rnd k pool).1 ++ (drawByes rnd k pool).2).Perm pool
  | 0, pool => List.Perm.refl pool
  | k + 1, pool => by
    by_cases h : 0 < pool.length
    · simp only [drawByes, dif_pos h]
      have ih := drawByes_perm rnd k (pool.eraseIdx (rnd k % pool.length))
      have hcons := perm_get_cons_eraseIdx pool ⟨rnd k % pool.length, Nat.mod_lt _ h⟩
      simpa using (ih.cons _).trans hcons
    · simp only [drawByes, dif_neg h]
      exact List.Perm.refl pool

theorem drawByes_length_fst (rnd : Nat → Nat) :
    ∀ (k : Nat) (pool : List Participant), k ≤ pool.length →
      (drawByes rnd k pool).1.length = k
  | 0, _, _ => rfl
  | k + 1, pool, hk => by
    have h : 0 < pool.length := Nat.lt_of_lt_of_le (Nat.succ_pos k) hk
    simp only [drawByes, dif_pos h, List.length_cons]
    have hlen : (pool.eraseIdx (rnd k % pool.length)).length + 1 = pool.length :=
      List.length_eraseIdx_add_one (Nat.mod_lt _ h)
    have : k ≤ (pool.eraseIdx (rnd k % pool.length)).length := by omega
    rw [drawByes_length_fst rnd k _ this]

theorem drawByes_length_snd (rnd : Nat → Nat) (k : Nat) (pool : List Participant)
    (hk : k ≤ pool.length) : (drawByes rnd k pool).2.length = pool.length - k := by
  have hperm := (drawByes_perm rnd k pool).length_eq
  rw [List.length_append, drawByes_length_fst rnd k pool hk] at hperm
  omega

/-! ## Facts about consecutive pairing -/

theorem pairPlayers_flatten (mkId : Nat → String) :
    ∀ (k : Nat) (pool : List Participant), pool.length % 2 = 0 →
      (pairPlayers mkId k pool).flatMap (fun m => [m.player1, m.player2]) = pool
  | _, [], _ => rfl
  | _, [_], h => by simp at h
  | k, p1 :: p2 :: rest, h => by
    have ih := pairPlayers_flatten mkId (k + 1) rest (by
      simp only [List.length_cons] at h
      omega)
    simp [pairPlayers, mkMatch, ih]

theorem pairPlayers_length (mkId : Nat → String) :
    ∀ (k : Nat) (pool : List Participant),
      (pairPlayers mkId k pool).length = pool.length / 2
  | _, [] => rfl
  | _, [_] => by simp [pairPlayers]
  | k, p1 :: p2 :: rest => by
    have ih := pairPlayers_length mkId (k + 1) rest
    simp only [pairPlayers, List.length_cons, ih]
    omega

theorem pairPlayers_pending (mkId : Nat → String) :
    ∀ (k : Nat) (pool : List Participant) (m : GameMatch),
      m ∈ pairPlayers mkId k pool → m.status = .pending ∧ m.winner = none
  | _, [], _, h => by simp [pairPlayers] at h
  | _, [_], _, h => by simp [pairPlayers] at h
  | k, p1 :: p2 :: rest, m, h => by
    rcases (by simpa [pairPlayers] using h :
        m = mkMatch (mkId k) p1 p2 ∨ m ∈ pairPlayers mkId (k + 1) rest) with h1 | h1
    · subst h1; exact ⟨rfl, rfl⟩
    · exact pairPlayers_pending mkId (k + 1) rest m h1

/-! ## The bracket-size loop -/

theorem bracketSizeAux_spec :
    ∀ (fuel b n : Nat), (∃ j, b = 2 ^ j) → n ≤ b * 2 ^ fuel →
      (∃ k, bracketSizeAux fuel b n = 2 ^ k) ∧
      n ≤ bracketSizeAux fuel b n ∧
      ∀ m, (∃ k2, m = 2 ^ k2) → b ≤ m → n ≤ m → bracketSizeAux fuel b n ≤ m
  | 0, b, n, hp, hle => by
    refine ⟨hp, by simpa using hle, fun m _ hbm _ => ?_⟩
    simpa [bracketSizeAux] using hbm
  | fuel + 1, b, n, hp, hle => by
    by_cases h : b < n
    · obtain ⟨j, rfl⟩ := hp
      have hstep := bracketSizeAux_spec fuel (2 * 2 ^ j) n
        ⟨j + 1, by ring⟩ (by
          have : 2 ^ j * 2 ^ (fuel + 1) = 2 * 2 ^ j * 2 ^ fuel := by ring
          omega)
      simp only [bracketSizeAux, if_pos h]
      refine ⟨hstep.1, hstep.2.1, fun m hm hbm hnm => ?_⟩
      obtain ⟨k2, rfl⟩ := hm
      refine hstep.2.2 _ ⟨k2, rfl⟩ ?_ hnm
      have hjk : 2 ^ j < 2 ^ k2 := Nat.lt_of_lt_of_le h hnm
      have : j < k2 := (Nat.pow_lt_pow_iff_right (by omega)).mp hjk
      calc 2 * 2 ^ j = 2 ^ (j + 1) := by ring
        _ ≤ 2 ^ k2 := Nat.pow_le_pow_right (by omega) (by omega)
    · simp only [bracketSizeAux, if_neg h]
      exact ⟨hp, by omega, fun m _ hbm _ => hbm⟩

theorem computeBracketSize_spec (n : Nat) :
    (∃ k, computeBracketSize n = 2 ^ k) ∧
    n ≤ computeBracketSize n ∧
    ∀ m, (∃ k2, m = 2 ^ k2) → n ≤ m → computeBracketSize n ≤ m := by
  have h := bracketSizeAux_spec n 1 n ⟨0, rfl⟩ (by
    have := Nat.lt_two_pow n
    omega)
  exact ⟨h.1, h.2.1, fun m hm hnm => h.2.2 m hm (by
    obtain ⟨k2, rfl⟩ := hm
    exact Nat.one_le_two_pow) hnm⟩

theorem computeBracketSize_lt_double (n : Nat) (hn : 1 ≤ n) :
    computeBracketSize n < 2 * n := by
  rcases Nat.lt_or_ge n 2 with h2 | h2
  · obtain rfl : n = 1 := by omega
    have : computeBracketSize 1 = 1 := rfl
    omega
  · have hspec := computeBracketSize_spec n
    have hlt : 2 ^ (Nat.clog 2 n) < 2 * n := by
      have hpred : 2 ^ (Nat.clog 2 n - 1) < n := Nat.pow_pred_clog_lt_self (by omega) h2
      have hc1 : 1 ≤ Nat.clog 2 n := by
        have hpos : 0 < Nat.clog 2 n := Nat.clog_pos (by omega) h2
        omega
      have : 2 ^ (Nat.clog 2 n) = 2 * 2 ^ (Nat.clog 2 n - 1) := by
        conv_lhs => rw [show Nat.clog 2 n = (Nat.clog 2 n - 1) + 1 by omega]
        ring
      omega
    have hle : computeBracketSize n ≤ 2 ^ (Nat.clog 2 n) :=
      hspec.2.2 _ ⟨_, rfl⟩ (Nat.le_pow_clog (by omega) n)
    omega

theorem computeBracketSize_even (n : Nat) (hn : 2 ≤ n) :
    computeBracketSize n % 2 = 0 := by
  obtain ⟨k, hk⟩ := (computeBracketSize_spec n).1
  have hge : n ≤ computeBracketSize n := (computeBracketSize_spec n).2.1
  rcases k with _ | k
  · simp [hk] at hge; omega
  · rw [hk, pow_succ]
    omega

/-! ## Builder-level facts shared by C3 and C4 -/

theorem builder_pool_facts (rnd1 rnd2 : Nat → Nat) (players : List Participant)
    (hN : 2 ≤ players.length) :
    let n := players.length
    let B := computeBracketSize n
    n ≤ B ∧ B < 2 * n ∧ B % 2 = 0 ∧
    (drawByes rnd2 (B - n) (shuffleArray rnd1 players)).1.length = B - n ∧
    (drawByes rnd2 (B - n) (shuffleArray rnd1 players)).2.length = n - (B - n) := by
  intro n B
  have hlen : (shuffleArray rnd1 players).length = n := shuffleArray_length rnd1 players
  have hnB : n ≤ B := (computeBracketSize_spec n).2.1
  have hB2n : B < 2 * n := computeBracketSize_lt_double n (by omega)
  have hBeven : B % 2 = 0 := computeBracketSize_even n hN
  have hbk : B - n ≤ (shuffleArray rnd1 players).length := by omega
  refine ⟨hnB, hB2n, hBeven, ?_, ?_⟩
  · exact drawByes_length_fst rnd2 (B - n) _ hbk
  · rw [drawByes_length_snd rnd2 (B - n) _ hbk, hlen]

/-- C3 -- For every list of `N ≥ 2` participants the bracket builder
returns `bracketSize` equal to the least power of two that is `≥ N`,
`totalRounds = log2(bracketSize)` (and that log is exact), and the
round-1 match count and bye count satisfy
`2 * rounds[0].length + playersWithByes.length = N`. -/
theorem C3_bracket_shape (rnd1 rnd2 : Nat → Nat) (now : Nat) (players : List Participant)
    (hN : 2 ≤ players.length) :
    (∃ k, (createSingleEliminationBracket rnd1 rnd2 now players).bracketSize = 2 ^ k) ∧
    players.length ≤ (createSingleEliminationBracket rnd1 rnd2 now players).bracketSize ∧
    (∀ m, (∃ k, m = 2 ^ k) → players.length ≤ m →
      (createSingleEliminationBracket rnd1 rnd2 now players).bracketSize ≤ m) ∧
    (createSingleEliminationBracket rnd1 rnd2 now players).totalRounds =
      Nat.log2 (createSingleEliminationBracket rnd1 rnd2 now players).bracketSize ∧
    2 ^ (createSingleEliminationBracket rnd1 rnd2 now players).totalRounds =
      (createSingleEliminationBracket rnd1 rnd2 now players).bracketSize ∧
    ∃ r1, (createSingleEliminationBracket rnd1 rnd2 now players).rounds = [r1] ∧
      2 * r1.length +
        (createSingleEliminationBracket rnd1 rnd2 now players).playersWithByes.length =
        players.length := by
  have hlen : (shuffleArray rnd1 players).length = players.length :=
    shuffleArray_length rnd1 players
  have hfacts := builder_pool_facts rnd1 rnd2 players hN
  obtain ⟨hnB, hB2n, hBeven, hfst, hsnd⟩ := hfacts
  have hspec := computeBracketSize_spec players.length
  obtain ⟨⟨k, hk⟩, -, hmin⟩ := hspec
  simp only [createSingleEliminationBracket, hlen]
  refine ⟨⟨k, hk⟩, hnB, fun m hm hnm => hmin m hm hnm, trivial, ?_, ?_⟩
  · rw [hk, Nat.log2_eq_log_two, Nat.log_pow (by omega)]
  · refine ⟨_, rfl, ?_⟩
    rw [pairPlayers_length, hsnd, hfst]
    omega

/-- C4 -- After building, the participants sitting in round-1 slots
together with `playersWithByes` are a permutation of the input list:
each input participant occupies exactly one such place. -/
theorem C4_partition (rnd1 rnd2 : Nat → Nat) (now : Nat) (players : List Participant)
    (hN : 2 ≤ players.length) :
    ∃ r1, (createSingleEliminationBracket rnd1 rnd2 now players).rounds = [r1] ∧
      ((r1.flatMap fun m => [m.player1, m.player2]) ++
        (createSingleEliminationBracket rnd1 rnd2 now players).playersWithByes).Perm
        players := by
  have hlen : (shuffleArray rnd1 players).length = players.length :=
    shuffleArray_length rnd1 players
  obtain ⟨hnB, hB2n, hBeven, hfst, hsnd⟩ := builder_pool_facts rnd1 rnd2 players hN
  simp only [createSingleEliminationBracket, hlen]
  refine ⟨_, rfl, ?_⟩
  rw [pairPlayers_flatten _ _ _ (by rw [hsnd]; omega)]
  have hperm := drawByes_perm rnd2 (computeBracketSize players.length - players.length)
    (shuffleArray rnd1 players)
  have hcomm := @List.perm_append_comm _
    (drawByes rnd2 (computeBracketSize players.length - players.length)
      (shuffleArray rnd1 players)).2
    ((drawByes rnd2 (computeBracketSize players.length - players.length)
      (shuffleArray rnd1 players)).1)
  exact (hcomm.trans hperm).trans (shuffleArray_perm rnd1 players)

/-! ## Lemmas about match lookup and replacement -/

theorem setMatchInRound_find (mid : String) (m1 : GameMatch) (hid : m1.id = mid) :
    ∀ (r : List GameMatch) (m : GameMatch),
      r.find? (fun x => x.id == mid) = some m →
      (setMatchInRound mid m1 r).find? (fun x => x.id == mid) = some m1
  | [], m, h => by simp at h
  | m0 :: rest, m, h => by
    by_cases h0 : m0.id == mid
    · simp only [setMatchInRound, if_pos h0]
      simp [List.find?_cons, hid]
    · simp only [setMatchInRound, if_neg h0]
      rw [List.find?_cons_of_neg _ (by simpa using h0)]
      rw [List.find?_cons_of_neg _ (by simpa using h0)] at h
      exact setMatchInRound_find mid m1 hid rest m h

theorem setMatchInRound_mem (mid : String) (m1 : GameMatch) :
    ∀ (r : List GameMatch) (x : GameMatch),
      x ∈ setMatchInRound mid m1 r → x = m1 ∨ x ∈ r
  | [], x, h => by simp [setMatchInRound] at h
  | m0 :: rest, x, h => by
    by_cases h0 : m0.id == mid
    · simp only [setMatchInRound, if_pos h0, List.mem_cons] at h
      rcases h with h | h
      · exact Or.inl h
      · exact Or.inr (List.mem_cons_of_mem _ h)
    · simp only [setMatchInRound, if_neg h0, List.mem_cons] at h
      rcases h with h | h
      · exact Or.inr (by simp [h])
      · rcases setMatchInRound_mem mid m1 rest x h with h1 | h1
        · exact Or.inl h1
        · exact Or.inr (List.mem_cons_of_mem _ h1)

theorem any_eq_false_of_find?_eq_none {p : GameMatch → Bool} {r : List GameMatch}
    (h : r.find? p = none) : r.any p = false := by
  rw [List.find?_eq_none] at h
  simpa [List.any_eq_false] using h

theorem any_eq_true_of_find?_eq_some {p : GameMatch → Bool} {r : List GameMatch} {m : GameMatch}
    (h : r.find? p = some m) : r.any p = true := by
  rcases List.mem_of_find?_eq_some h with hm
  exact List.any_eq_true.mpr ⟨m, hm, List.find?_some h⟩

theorem findMatchAux_set (mid : String) (m1 : GameMatch) (hid : m1.id = mid) :
    ∀ (rounds : List (List GameMatch)) (i j : Nat) (m : GameMatch),
      findMatchAux mid i rounds = some (j, m) →
      findMatchAux mid i (setFirstMatch mid m1 rounds) = some (j, m1)
  | [], i, j, m, h => by simp [findMatchAux] at h
  | r :: rest, i, j, m, h => by
    cases hf : r.find? (fun x => x.id == mid) with
    | some m0 =>
      rw [findMatchAux, hf] at h
      obtain ⟨rfl, rfl⟩ : i = j ∧ m0 = m := by
        constructor <;> [exact congrArg Prod.fst (Option.some.inj h); exact congrArg Prod.snd (Option.some.inj h)]
      rw [setFirstMatch, if_pos (any_eq_true_of_find?_eq_some hf)]
      rw [findMatchAux, setMatchInRound_find mid m1 hid r m0 hf]
    | none =>
      rw [findMatchAux, hf] at h
      rw [setFirstMatch, if_neg (by simp [any_eq_false_of_find?_eq_none hf])]
      rw [findMatchAux, hf]
      exact findMatchAux_set mid m1 hid rest (i + 1) j m h

theorem findMatch_set (mid : String) (m1 : GameMatch) (hid : m1.id = mid)
    (rounds : List (List GameMatch)) (j : Nat) (m : GameMatch)
    (h : findMatch rounds mid = some (j, m)) :
    findMatch (setFirstMatch mid m1 rounds) mid = some (j, m1) :=
  findMatchAux_set mid m1 hid rounds 0 j m h

theorem findMatchAux_append (mid : String) (extra : List (List GameMatch)) :
    ∀ (rounds : List (List GameMatch)) (i : Nat) (y : Nat × GameMatch),
      findMatchAux mid i rounds = some y →
      findMatchAux mid i (rounds ++ extra) = some y
  | [], i, y, h => by simp [findMatchAux] at h
  | r :: rest, i, y, h => by
    cases hf : r.find? (fun x => x.id == mid) with
    | some m0 =>
      rw [findMatchAux, hf] at h
      rw [List.cons_append, findMatchAux, hf]
      exact h
    | none =>
      rw [findMatchAux, hf] at h
      rw [List.cons_append, findMatchAux, hf]
      exact findMatchAux_append mid extra rest (i + 1) y h

theorem findMatchAux_get (mid : String) :
    ∀ (rounds : List (List GameMatch)) (i j : Nat) (m : GameMatch),
      findMatchAux mid i rounds = some (j, m) →
      i ≤ j ∧ ∃ r, rounds.get? (j - i) = some r ∧
        r.find? (fun x => x.id == mid) = some m
  | [], i, j, m, h => by simp [findMatchAux] at h
  | r :: rest, i, j, m, h => by
    cases hf : r.find? (fun x => x.id == mid) with
    | some m0 =>
      rw [findMatchAux, hf] at h
      obtain ⟨rfl, rfl⟩ : i = j ∧ m0 = m := by
        constructor <;> [exact congrArg Prod.fst (Option.some.inj h); exact congrArg Prod.snd (Option.some.inj h)]
      exact ⟨Nat.le_refl _, r, by simp, hf⟩
    | none =>
      rw [findMatchAux, hf] at h
      obtain ⟨hij, r2, hget, hfind⟩ := findMatchAux_get mid rest (i + 1) j m h
      refine ⟨by omega, r2, ?_, hfind⟩
      rw [show j - i = (j - (i + 1)) + 1 by omega]
      simpa using hget

theorem setFirstMatch_get_found (mid : String) (m1 : GameMatch) :
    ∀ (rounds : List (List GameMatch)) (i j : Nat) (m : GameMatch),
      findMatchAux mid i rounds = some (j, m) →
      (setFirstMatch mid m1 rounds).get? (j - i) =
        (rounds.get? (j - i)).map (setMatchInRound mid m1)
  | [], i, j, m, h => by simp [findMatchAux] at h
  | r :: rest, i, j, m, h => by
    cases hf : r.find? (fun x => x.id == mid) with
    | some m0 =>
      rw [findMatchAux, hf] at h
      obtain rfl : i = j := congrArg Prod.fst (Option.some.inj h)
      rw [setFirstMatch, if_pos (any_eq_true_of_find?_eq_some hf)]
      simp
    | none =>
      rw [findMatchAux, hf] at h
      have hij : i + 1 ≤ j := (findMatchAux_get mid rest (i + 1) j m h).1
      rw [setFirstMatch, if_neg (by simp [any_eq_false_of_find?_eq_none hf])]
      rw [show j - i = (j - (i + 1)) + 1 by omega]
      simpa using setFirstMatch_get_found mid m1 rest (i + 1) j m h

theorem setFirstMatch_get_other (mid : String) (m1 : GameMatch) :
    ∀ (rounds : List (List GameMatch)) (i j : Nat) (m : GameMatch),
      findMatchAux mid i rounds = some (j, m) →
      ∀ k, k + i ≠ j →
        (setFirstMatch mid m1 rounds).get? k = rounds.get? k
  | [], i, j, m, h => by simp [findMatchAux] at h
  | r :: rest, i, j, m, h => by
    intro k hk
    cases hf : r.find? (fun x => x.id == mid) with
    | some m0 =>
      rw [findMatchAux, hf] at h
      obtain rfl : i = j := congrArg Prod.fst (Option.some.inj h)
      rw [setFirstMatch, if_pos (any_eq_true_of_find?_eq_some hf)]
      cases k with
      | zero => omega
      | succ k2 => simp
    | none =>
      rw [findMatchAux, hf] at h
      rw [setFirstMatch, if_neg (by simp [any_eq_false_of_find?_eq_none hf])]
      cases k with
      | zero => simp
      | succ k2 =>
        simpa using setFirstMatch_get_other mid m1 rest (i + 1) j m h k2 (by omega)

theorem setFirstMatch_mem (mid : String) (m1 : GameMatch) :
    ∀ (rounds : List (List GameMatch)) (r2 : List GameMatch) (x : GameMatch),
      r2 ∈ setFirstMatch mid m1 rounds → x ∈ r2 →
      x = m1 ∨ ∃ r0 ∈ rounds, x ∈ r0
  | [], r2, x, h, _ => by simp [setFirstMatch] at h
  | r :: rest, r2, x, h, hx => by
    by_cases ha : r.any (fun m => m.id == mid)
    · rw [setFirstMatch, if_pos ha] at h
      rcases List.mem_cons.mp h with h1 | h1
      · subst h1
        rcases setMatchInRound_mem mid m1 r x hx with h2 | h2
        · exact Or.inl h2
        · exact Or.inr ⟨r, by simp, h2⟩
      · exact Or.inr ⟨r2, List.mem_cons_of_mem _ h1, hx⟩
    · rw [setFirstMatch, if_neg ha] at h
      rcases List.mem_cons.mp h with h1 | h1
      · subst h1
        exact Or.inr ⟨r2, by simp, hx⟩
      · rcases setFirstMatch_mem mid m1 rest r2 x h1 hx with h2 | h2
        · exact Or.inl h2
        · obtain ⟨r0, hr0, hxr0⟩ := h2
          exact Or.inr ⟨r0, List.mem_cons_of_mem _ hr0, hxr0⟩

theorem findMatch_mem (rounds : List (List GameMatch)) (mid : String) (j : Nat)
    (m : GameMatch) (h : findMatch rounds mid = some (j, m)) :
    m.id = mid ∧ ∃ r, rounds.get? j = some r ∧ m ∈ r := by
  obtain ⟨-, r, hget, hfind⟩ := findMatchAux_get mid rounds 0 j m h
  refine ⟨by simpa using List.find?_some hfind, r, by simpa using hget,
    List.mem_of_find?_eq_some hfind⟩

/-! ## Shape of `checkAndAdvanceRound` -/

theorem checkAndAdvanceRound_shape (gameId : String) (now idx : Nat)
    (st : Tournament × Users) (b : Bracket) (hb : st.1.bracket = some b) :
    ∃ b2, (checkAndAdvanceRound gameId now idx st).1.bracket = some b2 ∧
      (b2.rounds = b.rounds ∨
        ∃ ps, b2.rounds = b.rounds ++
          [pairPlayers (fun k => nextRoundId now k (b.currentRound + 1)) 0 ps]) ∧
      (b2.playersWithByes = b.playersWithByes ∨ b2.playersWithByes = []) ∧
      ((checkAndAdvanceRound gameId now idx st).1.status = st.1.status ∨
        (checkAndAdvanceRound gameId now idx st).1.status = .finished) ∧
      (checkAndAdvanceRound gameId now idx st).1.participants = st.1.participants := by
  simp only [checkAndAdvanceRound, hb]
  repeat' split
  all_goals first
  | exact ⟨b, hb, Or.inl rfl, Or.inl rfl, Or.inl rfl, rfl⟩
  | exact ⟨_, rfl, Or.inl rfl, Or.inl rfl, Or.inr rfl, rfl⟩
  | exact ⟨_, rfl, Or.inl rfl, Or.inr rfl, Or.inr rfl, rfl⟩
  | exact ⟨_, rfl, Or.inr ⟨_, rfl⟩, Or.inl rfl, Or.inl rfl, rfl⟩
  | exact ⟨_, rfl, Or.inr ⟨_, rfl⟩, Or.inr rfl, Or.inl rfl, rfl⟩
  | exact ⟨_, rfl, Or.inl rfl, Or.inl rfl, Or.inl rfl, rfl⟩
  | exact ⟨_, rfl, Or.inl rfl, Or.inr rfl, Or.inl rfl, rfl⟩

/-- C2 -- If all matches of a round are completed but that round is not
the bracket's current round (the next round exists already), invoking
round advancement does not append a new round: `bracket.rounds` is
unchanged. -/
theorem C2_advance_idempotent (gameId : String) (now idx : Nat) (st : Tournament × Users)
    (b : Bracket) (rd : List GameMatch)
    (hb : st.1.bracket = some b) (hget : b.rounds.get? idx = some rd)
    (hall : ∀ m ∈ rd, m.status = .completed)
    (hcur : idx + 1 ≠ b.currentRound) :
    ∃ b2, (checkAndAdvanceRound gameId now idx st).1.bracket = some b2 ∧
      b2.rounds = b.rounds := by
  simp only [checkAndAdvanceRound, hb]
  split
  · rename_i heq
    rw [hget] at heq
    exact absurd heq (by simp)
  rename_i round2 heq
  obtain rfl : round2 = rd := by
    rw [hget] at heq
    exact (Option.some.inj heq).symm
  have hallb : round2.all (fun m => m.status == MatchStatus.completed) = true := by
    rw [List.all_eq_true]
    intro m hm
    simpa using hall m hm
  rw [if_pos hallb]
  repeat' split
  all_goals exact ⟨_, rfl, rfl⟩

/-! Concrete sample data used by witnesses. -/

def pA : Participant := { id := 1, walletAddress := "wa" }

def pB : Participant := { id := 2, walletAddress := "wb" }

def rz : Nat → Nat := fun _ => 0

def doneMatch : GameMatch :=
  { id := "m1", player1 := pA, player2 := pB, winner := some pA,
    score1 := some 2, score2 := some 1, status := .completed,
    pendingResults := [], completedAt := some 0, completedBy := some .admin }

def staleBracket : Bracket :=
  { bracketSize := 2, totalRounds := 1, currentRound := 2,
    rounds := [[doneMatch]], playersWithByes := [],
    isComplete := false, winner := none }

def staleTournament : Tournament :=
  { status := .started, participants := [pA, pB], bracket := some staleBracket,
    winner := none, startedAt := some 0, finishedAt := none }

theorem C2_advance_idempotent_witness :
    ∃ b2, (checkAndAdvanceRound "fifa" 3 0 (staleTournament, [])).1.bracket = some b2 ∧
      b2.rounds = staleBracket.rounds :=
  C2_advance_idempotent "fifa" 3 0 (staleTournament, []) staleBracket [doneMatch]
    rfl rfl (by decide) (by decide)

theorem C3_bracket_shape_witness :
    2 ≤ ([pA, pB] : List Participant).length ∧
    ([pA, pB] : List Participant).length ≤
      (createSingleEliminationBracket rz rz 0 [pA, pB]).bracketSize :=
  ⟨by decide, (C3_bracket_shape rz rz 0 [pA, pB] (by decide)).2.1⟩

theorem C4_partition_witness :
    ∃ r1, (createSingleEliminationBracket rz rz 0 [pA, pB]).rounds = [r1] ∧
      ((r1.flatMap fun m => [m.player1, m.player2]) ++
        (createSingleEliminationBracket rz rz 0 [pA, pB]).playersWithByes).Perm
        [pA, pB] :=
  C4_partition rz rz 0 [pA, pB] (by decide)

/-! ## Result-shape decompositions of the routes -/

/-- The per-match winner invariant: completed matches carry one of their
two players as winner. -/
def matchOk (m : GameMatch) : Prop :=
  m.status = .completed → m.winner = some m.player1 ∨ m.winner = some m.player2

/-- The rounds of a tournament's bracket (empty when no bracket). -/
def roundsOf (t : Tournament) : List (List GameMatch) :=
  match t.bracket with
  | some b => b.rounds
  | none => []

/-- All matches of all rounds of a tournament's bracket satisfy `matchOk`. -/
def stateOk (t : Tournament) : Prop :=
  ∀ r ∈ roundsOf t, ∀ m ∈ r, matchOk m

/-- The full per-match invariant claimed by the spec: a completed match
carries one of its players as winner AND unequal scores. -/
def matchClaimC6 (m : GameMatch) : Prop :=
  m.status = .completed →
    (m.winner = some m.player1 ∨ m.winner = some m.player2) ∧ m.score1 ≠ m.score2

def stateClaimC6 (t : Tournament) : Prop :=
  ∀ r ∈ roundsOf t, ∀ m ∈ r, matchClaimC6 m

/-- Order of lifecycle statuses along registration → started → finished. -/
def statusRank : TStatus → Nat
  | .registration => 0
  | .started => 1
  | .finished => 2

instance (m : GameMatch) : Decidable (matchOk m) := by
  unfold matchOk
  infer_instance

instance (t : Tournament) : Decidable (stateOk t) := by
  unfold stateOk
  infer_instance

instance (m : GameMatch) : Decidable (matchClaimC6 m) := by
  unfold matchClaimC6
  infer_instance

instance (t : Tournament) : Decidable (stateClaimC6 t) := by
  unfold stateClaimC6
  infer_instance

/-- The `playersWithByes` list of a tournament (empty when no bracket). -/
def pwbOf (t : Tournament) : List Participant :=
  match t.bracket with
  | some b => b.playersWithByes
  | none => []

theorem submitResult_cases (gameId : String) (now : Nat) (mid : String)
    (sb : Nat) (w : String) (s1 s2 : Int) (st st2 : Tournament × Users)
    (hok : submitResult gameId now mid sb w s1 s2 st = .ok st2) :
    ∃ b roundIndex m m1, st.1.bracket = some b ∧
      findMatch b.rounds mid = some (roundIndex, m) ∧
      (st2 = ({ st.1 with
          bracket := some { b with rounds := setFirstMatch mid m1 b.rounds } }, st.2) ∨
       st2 = checkAndAdvanceRound gameId now roundIndex
         ({ st.1 with
            bracket := some { b with rounds := setFirstMatch mid m1 b.rounds } }, st.2)) ∧
      m1.id = m.id ∧ matchOk m1 := by
  unfold submitResult at hok
  split at hok
  · exact absurd hok (by simp)
  split at hok
  · exact absurd hok (by simp)
  rename_i b hb
  split at hok
  · exact absurd hok (by simp)
  rename_i ri tm hfm
  split at hok
  · exact absurd hok (by simp)
  rename_i hncomp
  split at hok
  · exact absurd hok (by simp)
  split at hok
  · exact absurd hok (by simp)
  dsimp only at hok
  split at hok
  · rename_i r1 r2 hpr
    split at hok
    · rename_i hagree
      refine ⟨b, ri, tm, _, hb, hfm, Or.inr (Except.ok.inj hok).symm, rfl, ?_⟩
      intro _
      by_cases hgt : r1.score1 > r1.score2
      · exact Or.inl (by simp [hgt])
      · exact Or.inr (by simp [hgt])
    · refine ⟨b, ri, tm, _, hb, hfm, Or.inl (Except.ok.inj hok).symm, rfl, ?_⟩
      intro hc
      exact absurd hc hncomp
  · refine ⟨b, ri, tm, _, hb, hfm, Or.inl (Except.ok.inj hok).symm, rfl, ?_⟩
    intro hc
    exact absurd hc hncomp

theorem adminSetResult_cases (gameId : String) (now : Nat) (mid : String)
    (wid : Option Nat) (s1 s2 : Option Int) (st st2 : Tournament × Users)
    (hok : adminSetResult gameId now mid wid s1 s2 st = .ok st2) :
    ∃ b roundIndex m m1, st.1.bracket = some b ∧
      findMatch b.rounds mid = some (roundIndex, m) ∧
      st2 = checkAndAdvanceRound gameId now roundIndex
        ({ st.1 with
           bracket := some { b with rounds := setFirstMatch mid m1 b.rounds } }, st.2) ∧
      m1.id = m.id ∧ m1.status = .completed ∧ m1.pendingResults = [] ∧
      m1.completedBy = some .admin ∧ matchOk m1 := by
  unfold adminSetResult at hok
  split at hok
  · exact absurd hok (by simp)
  rename_i b hb
  split at hok
  · exact absurd hok (by simp)
  rename_i ri tm hfm
  dsimp only at hok
  split at hok
  · exact absurd hok (by simp)
  rename_i mr heq
  split at heq
  · rename_i a c
    obtain rfl := Except.ok.inj heq
    refine ⟨b, ri, tm, _, hb, hfm, (Except.ok.inj hok).symm, rfl, rfl, rfl, rfl, ?_⟩
    intro _
    by_cases hgt : a > c
    · exact Or.inl (by simp [hgt])
    · exact Or.inr (by simp [hgt])
  · split at heq
    · rename_i wid2
      split at heq
      · exact absurd heq (by simp)
      · obtain rfl := Except.ok.inj heq
        refine ⟨b, ri, tm, _, hb, hfm, (Except.ok.inj hok).symm, rfl, rfl, rfl, rfl, ?_⟩
        intro _
        by_cases hw : wid2 = tm.player1.id
        · exact Or.inl (by simp [hw])
        · exact Or.inr (by simp [hw])
    · exact absurd heq (by simp)

theorem resetMatch_cases (st st2 : Tournament × Users) (mid : String)
    (hok : resetMatch st mid = .ok st2) :
    ∃ b roundIndex m m1, st.1.bracket = some b ∧
      findMatch b.rounds mid = some (roundIndex, m) ∧
      ∃ b2, st2.1.bracket = some b2 ∧ b2.rounds = setFirstMatch mid m1 b.rounds ∧
        m1 = { m with
          winner := none,
          score1 := none,
          score2 := none,
          status := .pending,
          completedAt := none,
          completedBy := none,
          pendingResults := [] } ∧
        m.status = .completed ∧
        b2.playersWithByes = b.playersWithByes ∧
        ((st.1.status ≠ .finished ∧ st2.1.status = st.1.status ∧
            st2.1.winner = st.1.winner ∧ st2.1.finishedAt = st.1.finishedAt ∧
            b2.winner = b.winner ∧ b2.isComplete = b.isComplete) ∨
          (st.1.status = .finished ∧ st2.1.status = .started ∧
            st2.1.winner = none ∧ st2.1.finishedAt = none ∧
            b2.winner = none ∧ b2.isComplete = false)) ∧
        st2.1.participants = st.1.participants ∧ st2.2 = st.2 := by
  unfold resetMatch at hok
  split at hok
  · exact absurd hok (by simp)
  rename_i b hb
  split at hok
  · exact absurd hok (by simp)
  rename_i ri tm hfm
  split at hok
  · exact absurd hok (by simp)
  rename_i hcomp
  dsimp only at hok
  split at hok
  · rename_i hfin
    obtain rfl := (Except.ok.inj hok).symm
    exact ⟨b, ri, tm, _, hb, hfm, _, rfl, rfl, rfl, by simpa using hcomp, rfl,
      Or.inr ⟨hfin, rfl, rfl, rfl, rfl, rfl⟩, rfl, rfl⟩
  · rename_i hnfin
    obtain rfl := (Except.ok.inj hok).symm
    exact ⟨b, ri, tm, _, hb, hfm, _, rfl, rfl, rfl, by simpa using hcomp, rfl,
      Or.inl ⟨hnfin, rfl, rfl, rfl, rfl, rfl⟩, rfl, rfl⟩

theorem startTournament_cases (r1 r2 : Nat → Nat) (now : Nat) (st st2 : Tournament × Users)
    (hok : startTournament r1 r2 now st = .ok st2) :
    st2 = ({ st.1 with
      status := .started,
      startedAt := some now,
      bracket := some (createSingleEliminationBracket r1 r2 now st.1.participants) }, st.2) ∧
    2 ≤ st.1.participants.length ∧ st.1.status ≠ .started := by
  unfold startTournament at hok
  split at hok
  · exact absurd hok (by simp)
  split at hok
  · exact absurd hok (by simp)
  rename_i hlen hstat
  exact ⟨(Except.ok.inj hok).symm, by omega, hstat⟩

theorem forceComplete_cases (gameId : String) (now : Nat) (wid : Nat)
    (st st2 : Tournament × Users)
    (hok : forceComplete gameId now wid st = .ok st2) :
    ∃ winner, st.1.participants.find? (fun p => p.id == wid) = some winner ∧
      st2 = ({ st.1 with
        status := .finished,
        finishedAt := some now,
        winner := some winner,
        bracket := st.1.bracket.map (fun b =>
          { b with isComplete := true, winner := some winner }) },
        updateUserStats st.2 winner.walletAddress gameId true) := by
  unfold forceComplete at hok
  split at hok
  · exact absurd hok (by simp)
  rename_i winner hfind
  exact ⟨winner, hfind, (Except.ok.inj hok).symm⟩

theorem resetTournament_cases (st st2 : Tournament × Users)
    (hok : resetTournament st = .ok st2) :
    st.1.status = .registration ∧
    st2 = ({ st.1 with
      participants := [],
      bracket := none,
      winner := none,
      finishedAt := none }, st.2) := by
  unfold resetTournament at hok
  split at hok
  · exact absurd hok (by simp)
  rename_i hstat
  exact ⟨by simpa using hstat, (Except.ok.inj hok).symm⟩

/-! ## Preservation of the winner invariant -/

theorem roundsOf_some {t : Tournament} {b : Bracket} (hb : t.bracket = some b) :
    roundsOf t = b.rounds := by
  simp [roundsOf, hb]

theorem checkAndAdvanceRound_stateOk (gameId : String) (now idx : Nat)
    (st : Tournament × Users) (h : stateOk st.1) :
    stateOk (checkAndAdvanceRound gameId now idx st).1 := by
  cases hbr : st.1.bracket with
  | none =>
    have heq : checkAndAdvanceRound gameId now idx st = st := by
      unfold checkAndAdvanceRound
      rw [hbr]
    rw [heq]
    exact h
  | some b =>
    obtain ⟨b2, hb2, hrounds, -, -, -⟩ := checkAndAdvanceRound_shape gameId now idx st b hbr
    intro r hr m hm
    rw [roundsOf_some hb2] at hr
    rcases hrounds with hr2 | ⟨ps, hr2⟩
    · rw [hr2] at hr
      exact h r (by rw [roundsOf_some hbr]; exact hr) m hm
    · rw [hr2] at hr
      rcases List.mem_append.mp hr with h1 | h1
      · exact h r (by rw [roundsOf_some hbr]; exact h1) m hm
      · have hrp : r = pairPlayers (fun k => nextRoundId now k (b.currentRound + 1)) 0 ps := by
          simpa using h1
        intro hc
        have hpend := (pairPlayers_pending _ _ _ m (by rw [hrp] at hm; exact hm)).1
        rw [hpend] at hc
        exact MatchStatus.noConfusion hc

theorem applyOp_stateOk (gameId : String) (st : Tournament × Users) (op : Op)
    (h : stateOk st.1) : stateOk (applyOp gameId st op).1 := by
  unfold applyOp
  cases op with
  | submit mid sb w s1 s2 now =>
    simp only [routeOf]
    cases hres : submitResult gameId now mid sb w s1 s2 st with
    | error e => exact h
    | ok st2 =>
      obtain ⟨b, ri, m, m1, hb, hfm, hst2, hid, hmok⟩ :=
        submitResult_cases _ _ _ _ _ _ _ _ _ hres
      have hOk1 : stateOk ({ st.1 with
          bracket := some { b with rounds := setFirstMatch mid m1 b.rounds } } : Tournament) := by
        intro r hr m2 hm2
        rw [roundsOf_some rfl] at hr
        rcases setFirstMatch_mem mid m1 b.rounds r m2 hr hm2 with h2 | ⟨r0, hr0, hm0⟩
        · rw [h2]; exact hmok
        · exact h r0 (by rw [roundsOf_some hb]; exact hr0) m2 hm0
      rcases hst2 with rfl | rfl
      · exact hOk1
      · exact checkAndAdvanceRound_stateOk gameId now ri _ hOk1
  | adminResult mid wid s1 s2 now =>
    simp only [routeOf]
    cases hres : adminSetResult gameId now mid wid s1 s2 st with
    | error e => exact h
    | ok st2 =>
      obtain ⟨b, ri, m, m1, hb, hfm, rfl, hid, -, -, -, hmok⟩ :=
        adminSetResult_cases _ _ _ _ _ _ _ _ hres
      refine checkAndAdvanceRound_stateOk gameId now ri _ ?_
      intro r hr m2 hm2
      rw [roundsOf_some rfl] at hr
      rcases setFirstMatch_mem mid m1 b.rounds r m2 hr hm2 with h2 | ⟨r0, hr0, hm0⟩
      · rw [h2]; exact hmok
      · exact h r0 (by rw [roundsOf_some hb]; exact hr0) m2 hm0
  | start r1 r2 now =>
    simp only [routeOf]
    cases hres : startTournament r1 r2 now st with
    | error e => exact h
    | ok st2 =>
      obtain ⟨rfl, -, -⟩ := startTournament_cases _ _ _ _ _ hres
      intro r hr m hm
      rw [roundsOf_some rfl] at hr
      simp only [createSingleEliminationBracket] at hr
      have hrp : r = pairPlayers
          (roundOneId now) 0
          (drawByes r2
            (computeBracketSize (shuffleArray r1 st.1.participants).length -
              (shuffleArray r1 st.1.participants).length)
            (shuffleArray r1 st.1.participants)).2 := by
        simpa using hr
      intro hc
      have hpend := (pairPlayers_pending _ _ _ m (by rw [hrp] at hm; exact hm)).1
      rw [hpend] at hc
      exact MatchStatus.noConfusion hc
  | matchReset mid =>
    simp only [routeOf]
    cases hres : resetMatch st mid with
    | error e => exact h
    | ok st2 =>
      obtain ⟨b, ri, m, m1, hb, hfm, b2, hb2, hr2, hm1, -, -, -, -, -⟩ :=
        resetMatch_cases _ _ _ hres
      have hpend : m1.status = .pending := by rw [hm1]
      intro r hr m2 hm2
      rw [roundsOf_some hb2, hr2] at hr
      rcases setFirstMatch_mem mid m1 b.rounds r m2 hr hm2 with h2 | ⟨r0, hr0, hm0⟩
      · rw [h2]
        intro hc
        rw [hpend] at hc
        exact MatchStatus.noConfusion hc
      · exact h r0 (by rw [roundsOf_some hb]; exact hr0) m2 hm0
  | force wid now =>
    simp only [routeOf]
    cases hres : forceComplete gameId now wid st with
    | error e => exact h
    | ok st2 =>
      obtain ⟨winner, hfind, rfl⟩ := forceComplete_cases _ _ _ _ _ hres
      show stateOk ({ st.1 with
        status := .finished, finishedAt := some now, winner := some winner,
        bracket := st.1.bracket.map (fun b2 =>
          { b2 with isComplete := true, winner := some winner }) } : Tournament)
      intro r hr m hm
      cases hbr : st.1.bracket with
      | none => simp [roundsOf, hbr] at hr
      | some b =>
        rw [roundsOf_some (show (({ st.1 with
          status := .finished, finishedAt := some now, winner := some winner,
          bracket := st.1.bracket.map (fun b2 =>
            { b2 with isComplete := true, winner := some winner }) } :
            Tournament)).bracket =
          some { b with isComplete := true, winner := some winner } by
            simp [hbr])] at hr
        exact h r (by rw [roundsOf_some hbr]; exact hr) m hm
  | reset =>
    simp only [routeOf]
    cases hres : resetTournament st with
    | error e => exact h
    | ok st2 =>
      obtain ⟨-, rfl⟩ := resetTournament_cases _ _ hres
      intro r hr m hm
      simp [roundsOf] at hr

theorem runOps_stateOk (gameId : String) :
    ∀ (ops : List Op) (st : Tournament × Users),
      stateOk st.1 → stateOk (runOps gameId st ops).1
  | [], _, h => h
  | op :: rest, st, h =>
    runOps_stateOk gameId rest (applyOp gameId st op) (applyOp_stateOk gameId st op h)

/-- C6 (amended) -- In every state reachable from a fresh tournament by
submit, admin result, start, match reset, force-complete and reset
operations, every completed match has its winner equal to its `player1`
or its `player2`.  (The score-inequality half of the claimed invariant
fails on the code; see the counterexample.) -/
theorem C6_winner_invariant (gameId : String) (users : Users)
    (ps : List Participant) (ops : List Op) :
    stateOk (runOps gameId (mkTournament ps, users) ops).1 :=
  runOps_stateOk gameId ops _ (by
    intro r hr m hm
    simp [roundsOf, mkTournament] at hr)

/-- C6 (counterexample) -- The claimed invariant `completed ⇒ winner ∈
players ∧ score1 ≠ score2` is violated in a reachable state: the admin
result route accepts an equal score pair (1, 1), completing the match
with `score1 = score2`. -/
theorem C6_counterexample :
    ¬ (∀ (gameId : String) (users : Users) (ps : List Participant) (ops : List Op),
        stateClaimC6 (runOps gameId (mkTournament ps, users) ops).1) := by
  intro h
  exact absurd (h "fifa" [] [pA, pB]
    [Op.start rz rz 0, Op.adminResult "match_0_0" none (some 1) (some 1) 7])
    (by decide)

/-! ## Status monotonicity -/

theorem applyOp_eq_of_ok {gameId : String} {op : Op} {st st2 : Tournament × Users}
    (h : routeOf gameId op st = .ok st2) : applyOp gameId st op = st2 := by
  unfold applyOp
  rw [h]

theorem applyOp_eq_of_error {gameId : String} {op : Op} {st : Tournament × Users}
    {e : ApiError} (h : routeOf gameId op st = .error e) : applyOp gameId st op = st := by
  unfold applyOp
  rw [h]

theorem statusRank_le_two (s : TStatus) : statusRank s ≤ 2 := by
  cases s <;> simp [statusRank]

/-- C8 (amended) -- Lifecycle status never moves backward along
registration → started → finished under submit, admin result or
force-complete; tournament reset never changes the status (it is
rejected outside registration); match reset moves it only from
`finished` back to `started`; and `start` either leaves the status or
sets it to `started` — the last is the exception the code adds to the
claimed rule: `start` is not rejected on a `finished` tournament and
restarts it. -/
theorem C8_monotonic_except (gameId : String) (st : Tournament × Users) :
    (∀ mid sb w s1 s2 now, statusRank st.1.status ≤
      statusRank (applyOp gameId st (Op.submit mid sb w s1 s2 now)).1.status) ∧
    (∀ mid wid s1 s2 now, statusRank st.1.status ≤
      statusRank (applyOp gameId st (Op.adminResult mid wid s1 s2 now)).1.status) ∧
    (∀ wid now, statusRank st.1.status ≤
      statusRank (applyOp gameId st (Op.force wid now)).1.status) ∧
    (∀ mid, (applyOp gameId st (Op.matchReset mid)).1.status = st.1.status ∨
      (st.1.status = .finished ∧
        (applyOp gameId st (Op.matchReset mid)).1.status = .started)) ∧
    ((applyOp gameId st Op.reset).1.status = st.1.status) ∧
    (∀ r1 r2 now, (applyOp gameId st (Op.start r1 r2 now)).1.status = st.1.status ∨
      (applyOp gameId st (Op.start r1 r2 now)).1.status = .started) := by
  refine ⟨?_, ?_, ?_, ?_, ?_, ?_⟩
  · intro mid sb w s1 s2 now
    cases hres : submitResult gameId now mid sb w s1 s2 st with
    | error e =>
      rw [applyOp_eq_of_error (by simpa [routeOf] using hres)]
    | ok st2 =>
      rw [applyOp_eq_of_ok (by simpa [routeOf] using hres)]
      obtain ⟨b, ri, m, m1, hb, hfm, hst2, -, -⟩ :=
        submitResult_cases _ _ _ _ _ _ _ _ _ hres
      rcases hst2 with rfl | rfl
      · exact Nat.le_refl _
      · obtain ⟨b2, -, -, -, hstat, -⟩ :=
          checkAndAdvanceRound_shape gameId now ri
            ({ st.1 with
              bracket := some { b with rounds := setFirstMatch mid m1 b.rounds } }, st.2)
            { b with rounds := setFirstMatch mid m1 b.rounds } rfl
        rcases hstat with heq | heq
        · rw [heq]
        · rw [heq]
          exact statusRank_le_two _
  · intro mid wid s1 s2 now
    cases hres : adminSetResult gameId now mid wid s1 s2 st with
    | error e =>
      rw [applyOp_eq_of_error (by simpa [routeOf] using hres)]
    | ok st2 =>
      rw [applyOp_eq_of_ok (by simpa [routeOf] using hres)]
      obtain ⟨b, ri, m, m1, hb, hfm, rfl, -, -, -, -, -⟩ :=
        adminSetResult_cases _ _ _ _ _ _ _ _ hres
      obtain ⟨b2, -, -, -, hstat, -⟩ :=
        checkAndAdvanceRound_shape gameId now ri
          ({ st.1 with
            bracket := some { b with rounds := setFirstMatch mid m1 b.rounds } }, st.2)
          { b with rounds := setFirstMatch mid m1 b.rounds } rfl
      rcases hstat with heq | heq
      · rw [heq]
      · rw [heq]
        exact statusRank_le_two _
  · intro wid now
    cases hres : forceComplete gameId now wid st with
    | error e =>
      rw [applyOp_eq_of_error (by simpa [routeOf] using hres)]
    | ok st2 =>
      rw [applyOp_eq_of_ok (by simpa [routeOf] using hres)]
      obtain ⟨winner, -, rfl⟩ := forceComplete_cases _ _ _ _ _ hres
      exact statusRank_le_two _
  · intro mid
    cases hres : resetMatch st mid with
    | error e =>
      rw [applyOp_eq_of_error (by simpa [routeOf] using hres)]
      exact Or.inl rfl
    | ok st2 =>
      rw [applyOp_eq_of_ok (by simpa [routeOf] using hres)]
      obtain ⟨b, ri, m, m1, hb, hfm, b2, -, -, -, -, -, hstat, -, -⟩ :=
        resetMatch_cases _ _ _ hres
      rcases hstat with ⟨-, h1, -⟩ | ⟨h1, h2, -⟩
      · exact Or.inl h1
      · exact Or.inr ⟨h1, h2⟩
  · cases hres : resetTournament st with
    | error e =>
      rw [applyOp_eq_of_error (by simpa [routeOf] using hres)]
    | ok st2 =>
      rw [applyOp_eq_of_ok (by simpa [routeOf] using hres)]
      obtain ⟨-, rfl⟩ := resetTournament_cases _ _ hres
      rfl
  · intro r1 r2 now
    cases hres : startTournament r1 r2 now st with
    | error e =>
      rw [applyOp_eq_of_error (by simpa [routeOf] using hres)]
      exact Or.inl rfl
    | ok st2 =>
      rw [applyOp_eq_of_ok (by simpa [routeOf] using hres)]
      obtain ⟨rfl, -, -⟩ := startTournament_cases _ _ _ _ _ hres
      exact Or.inr rfl

/-- C8 (counterexample) -- The claim that no operation other than the
tournament reset and the match reset ever moves the status backward is
false: starting an already-finished tournament succeeds (start only
rejects status `started`) and moves `finished` back to `started`. -/
theorem C8_counterexample :
    ¬ (∀ (gameId : String) (users : Users) (ps : List Participant) (ops : List Op)
        (op : Op),
        (∀ mid, op ≠ Op.matchReset mid) → op ≠ Op.reset →
        statusRank (runOps gameId (mkTournament ps, users) ops).1.status ≤
          statusRank
            (applyOp gameId (runOps gameId (mkTournament ps, users) ops) op).1.status) := by
  intro h
  have h2 := h "fifa" [] [pA, pB]
    [Op.start rz rz 0, Op.adminResult "match_0_0" none (some 2) (some 1) 5]
    (Op.start rz rz 9) (fun mid => by simp) (by simp)
  revert h2
  decide

/-! ## Byes are drained exactly once -/

theorem pwbOf_some {t : Tournament} {b : Bracket} (hb : t.bracket = some b) :
    pwbOf t = b.playersWithByes := by
  simp [pwbOf, hb]

/-- C7 -- (1) When round index 0 is fully completed, round advancement
clears `playersWithByes`, and when it builds a next round its pairing
pool is the round winners in round order followed by the bye players.
(2) No operation other than `start` (which builds a fresh bracket) ever
changes `playersWithByes` except to empty it: the list is never
re-populated. -/
theorem C7_byes_drained :
    (∀ (gameId : String) (now : Nat) (st : Tournament × Users) (b : Bracket)
        (rd : List GameMatch),
      st.1.bracket = some b → b.rounds.get? 0 = some rd →
      (∀ m ∈ rd, m.status = .completed) → b.playersWithByes ≠ [] →
      ∃ b2, (checkAndAdvanceRound gameId now 0 st).1.bracket = some b2 ∧
        b2.playersWithByes = [] ∧
        (b2.rounds = b.rounds ∨
          b2.rounds = b.rounds ++
            [pairPlayers (fun k => nextRoundId now k (b.currentRound + 1)) 0
              (rd.filterMap (fun m => m.winner) ++ b.playersWithByes)])) ∧
    (∀ (gameId : String) (st : Tournament × Users) (op : Op),
      (∀ r1 r2 n2, op ≠ Op.start r1 r2 n2) →
      pwbOf (applyOp gameId st op).1 = pwbOf st.1 ∨
        pwbOf (applyOp gameId st op).1 = []) := by
  constructor
  · intro gameId now st b rd hb hget hall hbne
    simp only [checkAndAdvanceRound, hb]
    split
    · rename_i heq
      rw [hget] at heq
      exact absurd heq (by simp)
    rename_i rd2 heq
    obtain rfl : rd2 = rd := by
      rw [hget] at heq
      exact (Option.some.inj heq).symm
    have hallb : rd2.all (fun m => m.status == MatchStatus.completed) = true := by
      rw [List.all_eq_true]
      intro m hm
      simpa using hall m hm
    rw [if_pos hallb]
    have h00 : ((0 : Nat) == 0) = true := rfl
    rw [if_pos h00, if_pos h00]
    repeat' split
    all_goals first
    | exact ⟨_, rfl, rfl, Or.inl rfl⟩
    | exact ⟨_, rfl, rfl, Or.inr rfl⟩
  · intro gameId st op hnotstart
    cases op with
    | start r1 r2 n2 => exact absurd rfl (hnotstart r1 r2 n2)
    | submit mid sb w s1 s2 now =>
      cases hres : submitResult gameId now mid sb w s1 s2 st with
      | error e =>
        rw [applyOp_eq_of_error (by simpa [routeOf] using hres)]
        exact Or.inl rfl
      | ok st2 =>
        rw [applyOp_eq_of_ok (by simpa [routeOf] using hres)]
        obtain ⟨b, ri, m, m1, hb, hfm, hst2, -, -⟩ :=
          submitResult_cases _ _ _ _ _ _ _ _ _ hres
        rcases hst2 with rfl | rfl
        · exact Or.inl (by rw [pwbOf_some (rfl :
            ({ st.1 with bracket := some { b with
              rounds := setFirstMatch mid m1 b.rounds } } : Tournament).bracket = _),
            pwbOf_some hb])
        · obtain ⟨b2, hb2, -, hpwb, -, -⟩ :=
            checkAndAdvanceRound_shape gameId now ri
              ({ st.1 with
                bracket := some { b with rounds := setFirstMatch mid m1 b.rounds } }, st.2)
              { b with rounds := setFirstMatch mid m1 b.rounds } rfl
          rcases hpwb with heq | heq
          · exact Or.inl (by rw [pwbOf_some hb2, heq, pwbOf_some hb])
          · exact Or.inr (by rw [pwbOf_some hb2, heq])
    | adminResult mid wid s1 s2 now =>
      cases hres : adminSetResult gameId now mid wid s1 s2 st with
      | error e =>
        rw [applyOp_eq_of_error (by simpa [routeOf] using hres)]
        exact Or.inl rfl
      | ok st2 =>
        rw [applyOp_eq_of_ok (by simpa [routeOf] using hres)]
        obtain ⟨b, ri, m, m1, hb, hfm, rfl, -, -, -, -, -⟩ :=
          adminSetResult_cases _ _ _ _ _ _ _ _ hres
        obtain ⟨b2, hb2, -, hpwb, -, -⟩ :=
          checkAndAdvanceRound_shape gameId now ri
            ({ st.1 with
              bracket := some { b with rounds := setFirstMatch mid m1 b.rounds } }, st.2)
            { b with rounds := setFirstMatch mid m1 b.rounds } rfl
        rcases hpwb with heq | heq
        · exact Or.inl (by rw [pwbOf_some hb2, heq, pwbOf_some hb])
        · exact Or.inr (by rw [pwbOf_some hb2, heq])
    | matchReset mid =>
      cases hres : resetMatch st mid with
      | error e =>
        rw [applyOp_eq_of_error (by simpa [routeOf] using hres)]
        exact Or.inl rfl
      | ok st2 =>
        rw [applyOp_eq_of_ok (by simpa [routeOf] using hres)]
        obtain ⟨b, ri, m, m1, hb, hfm, b2, hb2, -, -, -, hpwb, -, -, -⟩ :=
          resetMatch_cases _ _ _ hres
        exact Or.inl (by rw [pwbOf_some hb2, hpwb, pwbOf_some hb])

    | force wid now =>
      cases hres : forceComplete gameId now wid st with
      | error e =>
        rw [applyOp_eq_of_error (by simpa [routeOf] using hres)]
        exact Or.inl rfl
      | ok st2 =>
        rw [applyOp_eq_of_ok (by simpa [routeOf] using hres)]
        obtain ⟨winner, -, rfl⟩ := forceComplete_cases _ _ _ _ _ hres
        cases hbr : st.1.bracket with
        | none =>
          right
          simp [pwbOf]
        | some b =>
          left
          rw [pwbOf_some hbr]
          simp [pwbOf]
    | reset =>
      cases hres : resetTournament st with
      | error e =>
        rw [applyOp_eq_of_error (by simpa [routeOf] using hres)]
        exact Or.inl rfl
      | ok st2 =>
        rw [applyOp_eq_of_ok (by simpa [routeOf] using hres)]
        obtain ⟨-, rfl⟩ := resetTournament_cases _ _ hres
        exact Or.inr (by simp [pwbOf])

def pC : Participant := { id := 3, walletAddress := "wc" }

def byeBracket : Bracket :=
  { bracketSize := 4, totalRounds := 2, currentRound := 1,
    rounds := [[doneMatch]], playersWithByes := [pC],
    isComplete := false, winner := none }

def byeTournament : Tournament :=
  { status := .started, participants := [pA, pB, pC], bracket := some byeBracket,
    winner := none, startedAt := some 0, finishedAt := none }

theorem C7_byes_drained_witness :
    (∃ b2, (checkAndAdvanceRound "fifa" 4 0 (byeTournament, ([] : Users))).1.bracket =
        some b2 ∧
      b2.playersWithByes = [] ∧
      (b2.rounds = byeBracket.rounds ∨
        b2.rounds = byeBracket.rounds ++
          [pairPlayers (fun k => nextRoundId 4 k (byeBracket.currentRound + 1)) 0
            ([doneMatch].filterMap (fun m => m.winner) ++
              byeBracket.playersWithByes)])) ∧
    (pwbOf (applyOp "fifa" (byeTournament, ([] : Users)) Op.reset).1 =
        pwbOf (byeTournament, ([] : Users)).1 ∨
      pwbOf (applyOp "fifa" (byeTournament, ([] : Users)) Op.reset).1 = []) :=
  ⟨C7_byes_drained.1 "fifa" 4 (byeTournament, []) byeBracket [doneMatch] rfl rfl
      (by decide) (by decide),
   C7_byes_drained.2 "fifa" (byeTournament, []) Op.reset (by
      intro r1 r2 n2
      simp)⟩

/-! ## Match reset -/

/-- C9 -- Resetting a completed match reverts exactly that match to
`pending` with winner, scores, completion stamps and submissions
cleared; rounds other than the match's round are untouched; a
`finished` tournament reverts to `started` with tournament and bracket
winner cleared, otherwise the status is unchanged; and the route fails
with a distinct error when the match is not completed. -/
theorem C9_match_reset (st : Tournament × Users) (b : Bracket) (ri : Nat)
    (m : GameMatch) (mid : String)
    (hb : st.1.bracket = some b) (hfm : findMatch b.rounds mid = some (ri, m)) :
    (m.status ≠ .completed → resetMatch st mid = .error .matchNotCompleted) ∧
    (m.status = .completed →
      ∃ st2, resetMatch st mid = .ok st2 ∧
        ∃ b2, st2.1.bracket = some b2 ∧
          findMatch b2.rounds mid = some (ri, { m with
            winner := none,
            score1 := none,
            score2 := none,
            status := .pending,
            completedAt := none,
            completedBy := none,
            pendingResults := [] }) ∧
          (∀ j, j ≠ ri → b2.rounds.get? j = b.rounds.get? j) ∧
          (st.1.status = .finished → st2.1.status = .started ∧
            st2.1.winner = none ∧ st2.1.finishedAt = none ∧
            b2.winner = none ∧ b2.isComplete = false) ∧
          (st.1.status ≠ .finished → st2.1.status = st.1.status) ∧
          st2.1.participants = st.1.participants) := by
  have hmid : m.id = mid := (findMatch_mem b.rounds mid ri m hfm).1
  constructor
  · intro hnc
    simp only [resetMatch, hb, hfm]
    rw [if_pos hnc]
  · intro hc
    have hex : ∃ st2, resetMatch st mid = .ok st2 := by
      simp only [resetMatch, hb, hfm]
      rw [if_neg (fun hne => hne hc)]
      split
      · exact ⟨_, rfl⟩
      · exact ⟨_, rfl⟩
    obtain ⟨st2, hok⟩ := hex
    obtain ⟨b0, ri0, m0, m1, hb0, hfm0, b2, hb2, hr2, hm1, -, -, hstat, hparts, -⟩ :=
      resetMatch_cases _ _ _ hok
    rw [hb] at hb0
    obtain rfl := Option.some.inj hb0
    rw [hfm] at hfm0
    obtain ⟨rfl, rfl⟩ := Prod.ext_iff.mp (Option.some.inj hfm0)
    refine ⟨st2, hok, b2, hb2, ?_, ?_, ?_, ?_, hparts⟩
    · rw [hr2, hm1]
      exact findMatch_set mid
        { m with
          winner := none,
          score1 := none,
          score2 := none,
          status := .pending,
          completedAt := none,
          completedBy := none,
          pendingResults := [] } hmid b.rounds ri m hfm
    · intro j hj
      rw [hr2]
      exact setFirstMatch_get_other mid _ b.rounds 0 ri m hfm j (by simpa using hj)
    · intro hfin
      rcases hstat with ⟨hne, -⟩ | ⟨-, h1, h2, h3, h4, h5⟩
      · exact absurd hfin hne
      · exact ⟨h1, h2, h3, h4, h5⟩
    · intro hnfin
      rcases hstat with ⟨-, h1, -⟩ | ⟨hfin, -⟩
      · exact h1
      · exact absurd hfin hnfin

theorem C9_match_reset_witness :
    (doneMatch.status ≠ .completed →
      resetMatch (staleTournament, ([] : Users)) "m1" = .error .matchNotCompleted) ∧
    (doneMatch.status = .completed →
      ∃ st2, resetMatch (staleTournament, ([] : Users)) "m1" = .ok st2 ∧
        ∃ b2, st2.1.bracket = some b2 ∧
          findMatch b2.rounds "m1" = some (0, { doneMatch with
            winner := none,
            score1 := none,
            score2 := none,
            status := .pending,
            completedAt := none,
            completedBy := none,
            pendingResults := [] }) ∧
          (∀ j, j ≠ 0 → b2.rounds.get? j = staleBracket.rounds.get? j) ∧
          ((staleTournament, ([] : Users)).1.status = .finished →
            st2.1.status = .started ∧
            st2.1.winner = none ∧ st2.1.finishedAt = none ∧
            b2.winner = none ∧ b2.isComplete = false) ∧
          ((staleTournament, ([] : Users)).1.status ≠ .finished →
            st2.1.status = (staleTournament, ([] : Users)).1.status) ∧
          st2.1.participants = (staleTournament, ([] : Users)).1.participants) :=
  C9_match_reset (staleTournament, []) staleBracket 0 doneMatch "m1" rfl (by decide)

/-! ## Submit-result validation -/

theorem findMatch_checkAndAdvance (gameId : String) (now idx : Nat)
    (st : Tournament × Users) (b : Bracket) (mid : String) (y : Nat × GameMatch)
    (hb : st.1.bracket = some b) (hf : findMatch b.rounds mid = some y) :
    ∃ b2, (checkAndAdvanceRound gameId now idx st).1.bracket = some b2 ∧
      findMatch b2.rounds mid = some y := by
  obtain ⟨b2, hb2, hrounds, -, -, -⟩ := checkAndAdvanceRound_shape gameId now idx st b hb
  refine ⟨b2, hb2, ?_⟩
  rcases hrounds with heq | ⟨ps, heq⟩
  · rw [heq]
    exact hf
  · rw [heq]
    exact findMatchAux_append mid _ b.rounds 0 y hf

/-- C5 -- The submit-result route fails with a distinct error outcome
(writing nothing) when the scores are equal, the match is already
completed, the submitter is not one of the match's players, or the
submitter already has a pending entry — in the code's checking order —
and in every other case succeeds, growing the match's `pendingResults`
by exactly one entry. -/
theorem C5_submit_validation (gameId : String) (now : Nat) (mid : String) (sb : Nat)
    (w : String) (s1 s2 : Int) (st : Tournament × Users) (b : Bracket) (ri : Nat)
    (m : GameMatch)
    (hb : st.1.bracket = some b) (hfm : findMatch b.rounds mid = some (ri, m)) :
    (s1 = s2 → submitResult gameId now mid sb w s1 s2 st = .error .drawNotAllowed) ∧
    (s1 ≠ s2 → m.status = .completed →
      submitResult gameId now mid sb w s1 s2 st = .error .alreadyCompleted) ∧
    (s1 ≠ s2 → m.status ≠ .completed → sb ≠ m.player1.id → sb ≠ m.player2.id →
      submitResult gameId now mid sb w s1 s2 st = .error .notPartOfMatch) ∧
    (s1 ≠ s2 → m.status ≠ .completed → (sb = m.player1.id ∨ sb = m.player2.id) →
      (∃ r ∈ m.pendingResults, r.submittedBy = sb) →
      submitResult gameId now mid sb w s1 s2 st = .error .duplicateSubmission) ∧
    (s1 ≠ s2 → m.status ≠ .completed → (sb = m.player1.id ∨ sb = m.player2.id) →
      (∀ r ∈ m.pendingResults, r.submittedBy ≠ sb) →
      ∃ st2, submitResult gameId now mid sb w s1 s2 st = .ok st2 ∧
        ∃ b2 m2, st2.1.bracket = some b2 ∧
          findMatch b2.rounds mid = some (ri, m2) ∧
          m2.pendingResults.length = m.pendingResults.length + 1) := by
  have hidm : m.id = mid := (findMatch_mem b.rounds mid ri m hfm).1
  refine ⟨?_, ?_, ?_, ?_, ?_⟩
  · intro h
    simp only [submitResult]
    rw [if_pos h]
  · intro hne hcomp
    simp only [submitResult, hb, hfm]
    rw [if_neg hne, if_pos hcomp]
  · intro hne hnc h1 h2
    simp only [submitResult, hb, hfm]
    rw [if_neg hne, if_neg hnc, if_pos ⟨h1, h2⟩]
  · intro hne hnc hmem hdup
    obtain ⟨r, hr, hrsb⟩ := hdup
    have hany : m.pendingResults.any (fun r => r.submittedBy == sb) = true :=
      List.any_eq_true.mpr ⟨r, hr, by simpa using hrsb⟩
    simp only [submitResult, hb, hfm]
    rw [if_neg hne, if_neg hnc,
      if_neg (fun hpair => by rcases hmem with h | h; exacts [hpair.1 h, hpair.2 h]),
      if_pos hany]
  · intro hne hnc hmem hnd
    have hanyf : m.pendingResults.any (fun r => r.submittedBy == sb) = false :=
      List.any_eq_false.mpr (fun r hr => by simpa using hnd r hr)
    simp only [submitResult, hb, hfm]
    rw [if_neg hne, if_neg hnc,
      if_neg (fun hpair => by rcases hmem with h | h; exacts [hpair.1 h, hpair.2 h]),
      if_neg (by rw [hanyf]; simp)]
    cases hlist : m.pendingResults ++
        [{ submittedBy := sb, walletAddress := w, score1 := s1, score2 := s2,
           submittedAt := now, conflict := false }] with
    | nil => exact absurd hlist (by simp)
    | cons r1 rest =>
      have hlen : m.pendingResults.length + 1 = rest.length + 1 := by
        have := congrArg List.length hlist
        simpa using this
      cases rest with
      | nil =>
        refine ⟨_, rfl, _, _, rfl,
          findMatch_set mid { m with pendingResults := [r1] } hidm b.rounds ri m hfm,
          ?_⟩
        simpa using hlen.symm
      | cons r2 rest2 =>
        cases rest2 with
        | nil =>
          dsimp only
          by_cases hag : r1.score1 = r2.score1 ∧ r1.score2 = r2.score2
          · rw [if_pos hag]
            have hfm2 := findMatch_set mid
              { m with
                score1 := some r1.score1, score2 := some r1.score2,
                winner := some (if r1.score1 > r1.score2 then m.player1 else m.player2),
                status := .completed, completedAt := some now,
                completedBy := some .auto, pendingResults := [r1, r2] }
              hidm b.rounds ri m hfm
            obtain ⟨b2, hb2, hfm3⟩ := findMatch_checkAndAdvance gameId now ri
              ({ st.1 with bracket := some { b with
                  rounds := setFirstMatch mid
                    { m with
                      score1 := some r1.score1, score2 := some r1.score2,
                      winner := some (if r1.score1 > r1.score2 then
                        m.player1 else m.player2),
                      status := .completed, completedAt := some now,
                      completedBy := some .auto, pendingResults := [r1, r2] }
                    b.rounds } }, st.2)
              { b with
                rounds := setFirstMatch mid
                  { m with
                    score1 := some r1.score1, score2 := some r1.score2,
                    winner := some (if r1.score1 > r1.score2 then
                      m.player1 else m.player2),
                    status := .completed, completedAt := some now,
                    completedBy := some .auto, pendingResults := [r1, r2] }
                  b.rounds }
              mid _ rfl hfm2
            refine ⟨_, rfl, b2, _, hb2, hfm3, ?_⟩
            simp only [List.length_cons] at hlen ⊢
            omega
          · rw [if_neg hag]
            refine ⟨_, rfl, _, _, rfl,
              findMatch_set mid
                { m with pendingResults :=
                    [r1, r2].map (fun r => { r with conflict := true }) }
                hidm b.rounds ri m hfm,
              ?_⟩
            simp only [List.length_map, List.length_cons] at hlen ⊢
            omega
        | cons r3 rest3 =>
          refine ⟨_, rfl, _, _, rfl,
            findMatch_set mid { m with pendingResults := r1 :: r2 :: r3 :: rest3 }
              hidm b.rounds ri m hfm,
            ?_⟩
          simp only [List.length_cons] at hlen ⊢
          omega

def pendingMatch : GameMatch := mkMatch "p1" pA pB

def openBracket : Bracket :=
  { bracketSize := 2, totalRounds := 1, currentRound := 1,
    rounds := [[pendingMatch]], playersWithByes := [],
    isComplete := false, winner := none }

def openTournament : Tournament :=
  { status := .started, participants := [pA, pB], bracket := some openBracket,
    winner := none, startedAt := some 0, finishedAt := none }

theorem C5_submit_validation_witness :
    ((2 : Int) = 1 →
      submitResult "fifa" 1 "p1" 1 "wa" 2 1 (openTournament, ([] : Users)) =
        .error .drawNotAllowed) ∧
    ((2 : Int) ≠ 1 → pendingMatch.status = .completed →
      submitResult "fifa" 1 "p1" 1 "wa" 2 1 (openTournament, ([] : Users)) =
        .error .alreadyCompleted) ∧
    ((2 : Int) ≠ 1 → pendingMatch.status ≠ .completed →
      1 ≠ pendingMatch.player1.id → 1 ≠ pendingMatch.player2.id →
      submitResult "fifa" 1 "p1" 1 "wa" 2 1 (openTournament, ([] : Users)) =
        .error .notPartOfMatch) ∧
    ((2 : Int) ≠ 1 → pendingMatch.status ≠ .completed →
      (1 = pendingMatch.player1.id ∨ 1 = pendingMatch.player2.id) →
      (∃ r ∈ pendingMatch.pendingResults, r.submittedBy = 1) →
      submitResult "fifa" 1 "p1" 1 "wa" 2 1 (openTournament, ([] : Users)) =
        .error .duplicateSubmission) ∧
    ((2 : Int) ≠ 1 → pendingMatch.status ≠ .completed →
      (1 = pendingMatch.player1.id ∨ 1 = pendingMatch.player2.id) →
      (∀ r ∈ pendingMatch.pendingResults, r.submittedBy ≠ 1) →
      ∃ st2, submitResult "fifa" 1 "p1" 1 "wa" 2 1 (openTournament, ([] : Users)) =
          .ok st2 ∧
        ∃ b2 m2, st2.1.bracket = some b2 ∧
          findMatch b2.rounds "p1" = some (0, m2) ∧
          m2.pendingResults.length = pendingMatch.pendingResults.length + 1) :=
  C5_submit_validation "fifa" 1 "p1" 1 "wa" 2 1 (openTournament, []) openBracket 0
    pendingMatch rfl (by decide)

/-! ## Two-submission reconciliation -/

/-- C1 -- With exactly one pending submission on a non-completed match,
a valid second submission either agrees with it — then the match gets
the agreed scores, winner `player1` iff `score1 > score2` else
`player2`, status completed, `completedBy = auto`, and round
advancement is invoked on the updated state — or disagrees — then both
pending entries are flagged `conflict = true` and the match's status
stays not completed (no advancement runs). -/
theorem C1_two_submissions (gameId : String) (now : Nat) (mid : String) (sb : Nat)
    (w : String) (s1 s2 : Int) (st : Tournament × Users) (b : Bracket) (ri : Nat)
    (m : GameMatch) (r1 : SubmittedResult)
    (hb : st.1.bracket = some b) (hfm : findMatch b.rounds mid = some (ri, m))
    (hs : s1 ≠ s2) (hnc : m.status ≠ .completed)
    (hmem : sb = m.player1.id ∨ sb = m.player2.id)
    (hpr : m.pendingResults = [r1]) (hnd : r1.submittedBy ≠ sb) :
    (r1.score1 = s1 ∧ r1.score2 = s2 →
      submitResult gameId now mid sb w s1 s2 st =
        .ok (checkAndAdvanceRound gameId now ri
          ({ st.1 with
              bracket := some { b with
                rounds := setFirstMatch mid
                  { m with
                    score1 := some s1,
                    score2 := some s2,
                    winner := some (if s1 > s2 then m.player1 else m.player2),
                    status := .completed,
                    completedAt := some now,
                    completedBy := some .auto,
                    pendingResults := [r1,
                      { submittedBy := sb, walletAddress := w, score1 := s1,
                        score2 := s2, submittedAt := now, conflict := false }] }
                  b.rounds } }, st.2))) ∧
    (¬(r1.score1 = s1 ∧ r1.score2 = s2) →
      submitResult gameId now mid sb w s1 s2 st =
        .ok (({ st.1 with
            bracket := some { b with
              rounds := setFirstMatch mid
                { m with
                  pendingResults :=
                    [{ r1 with conflict := true },
                     { submittedBy := sb, walletAddress := w, score1 := s1,
                       score2 := s2, submittedAt := now, conflict := true }] }
                b.rounds } }, st.2)) ∧
      m.status ≠ .completed) := by
  have hanyf : m.pendingResults.any (fun r => r.submittedBy == sb) = false :=
    List.any_eq_false.mpr (fun r hr => by
      rw [hpr] at hr
      simp only [List.mem_singleton] at hr
      subst hr
      simpa using hnd)
  simp only [submitResult, hb, hfm]
  rw [if_neg hs, if_neg hnc,
    if_neg (fun hpair => by rcases hmem with h | h; exacts [hpair.1 h, hpair.2 h]),
    if_neg (by rw [hanyf]; simp), hpr]
  simp only [List.cons_append, List.nil_append]
  constructor
  · intro hag
    obtain ⟨hA, hB⟩ := hag
    rw [if_pos ⟨hA, hB⟩, hA, hB]
  · intro hag
    rw [if_neg hag]
    exact ⟨rfl, hnc⟩

def firstSubmission : SubmittedResult :=
  { submittedBy := 1, walletAddress := "wa", score1 := 3, score2 := 1,
    submittedAt := 0, conflict := false }

def halfMatch : GameMatch :=
  { mkMatch "h1" pA pB with pendingResults := [firstSubmission] }

def halfBracket : Bracket :=
  { bracketSize := 2, totalRounds := 1, currentRound := 1,
    rounds := [[halfMatch]], playersWithByes := [],
    isComplete := false, winner := none }

def halfTournament : Tournament :=
  { status := .started, participants := [pA, pB], bracket := some halfBracket,
    winner := none, startedAt := some 0, finishedAt := none }

theorem C1_two_submissions_witness :
    submitResult "fifa" 5 "h1" 2 "wb" 3 1 (halfTournament, ([] : Users)) =
      .ok (checkAndAdvanceRound "fifa" 5 0
        ({ halfTournament with
            bracket := some { halfBracket with
              rounds := setFirstMatch "h1"
                { halfMatch with
                  score1 := some 3,
                  score2 := some 1,
                  winner := some (if (3 : Int) > 1 then
                    halfMatch.player1 else halfMatch.player2),
                  status := .completed,
                  completedAt := some 5,
                  completedBy := some .auto,
                  pendingResults := [firstSubmission,
                    { submittedBy := 2, walletAddress := "wb", score1 := 3,
                      score2 := 1, submittedAt := 5, conflict := false }] }
                halfBracket.rounds } }, ([] : Users))) :=
  (C1_two_submissions "fifa" 5 "h1" 2 "wb" 3 1 (halfTournament, []) halfBracket 0
    halfMatch firstSubmission rfl (by decide) (by decide) (by decide)
    (Or.inr (by decide)) rfl (by decide)).1 (by decide)

/-! ## Stats update is not idempotent -/

theorem lookupUser_update (w gameId : String) :
    ∀ (users : Users),
      lookupUser (updateUserStats users w gameId true) w =
        (lookupUser users w).map (fun u =>
          { u with
            totalWins := u.totalWins + 1,
            gameStats := u.gameStats.map (fun gs =>
              if gs.1 == gameId then (gs.1, updateGameStat true gs.2) else gs) })
  | [] => rfl
  | kv :: rest => by
    by_cases hk : kv.1 == strToLower w
    · simp only [updateUserStats, lookupUser, List.map_cons]
      rw [if_pos hk]
      rw [List.find?_cons_of_pos _ (by simpa using hk)]
      rw [show List.find? (fun kv2 => kv2.1 == strToLower w) (kv :: rest) = some kv from
        List.find?_cons_of_pos _ hk]
      simp
    · simp only [updateUserStats, lookupUser, List.map_cons]
      rw [if_neg hk]
      rw [List.find?_cons_of_neg _ (by simpa using hk)]
      rw [show List.find? (fun kv2 => kv2.1 == strToLower w) (kv :: rest) =
          List.find? (fun kv2 => kv2.1 == strToLower w) rest from
        List.find?_cons_of_neg _ hk]
      have ih := lookupUser_update w gameId rest
      simpa [updateUserStats, lookupUser] using ih

/-- C10 -- The tournament-completion branch of round advancement is not
guarded by the current-round check: whenever the match named by the
admin result route is alone in its round and no byes are pending, the
route completes it and re-runs the winner's stats update — even on an
already-finished tournament — incrementing `totalWins` and the per-game
counters (`updateGameStat` bumps both `wins` and `tournaments`) on
every invocation. -/
theorem C10_admin_restats (gameId : String) (now : Nat) (mid : String) (s1 s2 : Int)
    (st : Tournament × Users) (b : Bracket) (ri : Nat) (m : GameMatch) (u : UserRec)
    (hb : st.1.bracket = some b)
    (hfm : findMatch b.rounds mid = some (ri, m))
    (hget : b.rounds.get? ri = some [m])
    (hbyes : b.playersWithByes = [])
    (hfin : st.1.status = .finished)
    (hgt : s2 < s1)
    (hu : lookupUser st.2 m.player1.walletAddress = some u) :
    ∃ st2, adminSetResult gameId now mid none (some s1) (some s2) st = .ok st2 ∧
      st2.1.status = .finished ∧
      lookupUser st2.2 m.player1.walletAddress = some
        { u with
          totalWins := u.totalWins + 1,
          gameStats := u.gameStats.map (fun gs =>
            if gs.1 == gameId then (gs.1, updateGameStat true gs.2) else gs) } := by
  have hmid : m.id = mid := (findMatch_mem b.rounds mid ri m hfm).1
  have hstep : adminSetResult gameId now mid none (some s1) (some s2) st =
      .ok (checkAndAdvanceRound gameId now ri
        ({ st.1 with
          bracket := some { b with
            rounds := setFirstMatch mid
              { m with
                score1 := some s1, score2 := some s2,
                winner := some (if s1 > s2 then m.player1 else m.player2),
                status := .completed, completedAt := some now,
                completedBy := some .admin, pendingResults := [] }
              b.rounds } }, st.2)) := by
    simp only [adminSetResult, hb, hfm]
  have hget2 : (setFirstMatch mid
      { m with
        score1 := some s1, score2 := some s2,
        winner := some (if s1 > s2 then m.player1 else m.player2),
        status := .completed, completedAt := some now,
        completedBy := some .admin, pendingResults := [] }
      b.rounds).get? ri = some
      [{ m with
        score1 := some s1, score2 := some s2,
        winner := some (if s1 > s2 then m.player1 else m.player2),
        status := .completed, completedAt := some now,
        completedBy := some .admin, pendingResults := [] }] := by
    have h1 := setFirstMatch_get_found mid
      { m with
        score1 := some s1, score2 := some s2,
        winner := some (if s1 > s2 then m.player1 else m.player2),
        status := .completed, completedAt := some now,
        completedBy := some .admin, pendingResults := [] }
      b.rounds 0 ri m hfm
    rw [Nat.sub_zero, hget] at h1
    rw [h1]
    simp [setMatchInRound, hmid]
  have hadv : checkAndAdvanceRound gameId now ri
      ({ st.1 with
        bracket := some { b with
          rounds := setFirstMatch mid
            { m with
              score1 := some s1, score2 := some s2,
              winner := some (if s1 > s2 then m.player1 else m.player2),
              status := .completed, completedAt := some now,
              completedBy := some .admin, pendingResults := [] }
            b.rounds } }, st.2) =
      ({ st.1 with
        status := .finished, finishedAt := some now, winner := some m.player1,
        bracket := some { b with
          rounds := setFirstMatch mid
            { m with
              score1 := some s1, score2 := some s2,
              winner := some (if s1 > s2 then m.player1 else m.player2),
              status := .completed, completedAt := some now,
              completedBy := some .admin, pendingResults := [] }
            b.rounds,
          playersWithByes := [], isComplete := true,
          winner := some m.player1 } },
        updateUserStats st.2 m.player1.walletAddress gameId true) := by
    simp only [checkAndAdvanceRound]
    rw [hget2]
    simp [hbyes, hgt]
  refine ⟨_, hstep, ?_, ?_⟩
  · rw [hadv]
  · rw [hadv]
    show lookupUser (updateUserStats st.2 m.player1.walletAddress gameId true)
      m.player1.walletAddress = _
    rw [lookupUser_update, hu]
    rfl

def u0 : UserRec :=
  { walletAddress := "wa", totalWins := 3,
    gameStats := [("fifa", { tournaments := 2, wins := 1 })] }

def finishedBracket : Bracket :=
  { bracketSize := 2, totalRounds := 1, currentRound := 1,
    rounds := [[doneMatch]], playersWithByes := [],
    isComplete := true, winner := some pA }

def finishedTournament : Tournament :=
  { status := .finished, participants := [pA, pB], bracket := some finishedBracket,
    winner := some pA, startedAt := some 0, finishedAt := some 1 }

theorem C10_admin_restats_witness :
    ∃ st2, adminSetResult "fifa" 9 "m1" none (some 4) (some 2)
        (finishedTournament, [("wa", u0)]) = .ok st2 ∧
      st2.1.status = .finished ∧
      lookupUser st2.2 doneMatch.player1.walletAddress = some
        { u0 with
          totalWins := u0.totalWins + 1,
          gameStats := u0.gameStats.map (fun gs =>
            if gs.1 == "fifa" then (gs.1, updateGameStat true gs.2) else gs) } :=
  C10_admin_restats "fifa" 9 "m1" 4 2 (finishedTournament, [("wa", u0)])
    finishedBracket 0 doneMatch u0 rfl (by decide) (by decide) rfl rfl
    (by decide) (by decide)

end Fifa
